import Mathlib

/-!
# Verification of the OPR-Sim engagement simulator

A shallow embedding of `src/probabilityCalculator.js` (the combat resolver,
morale resolver, tactical decision maker and engagement orchestrator),
together with theorems settling the frozen claims about it.

Die rolls are modelled by a function `d : ℕ → Fin 6` giving the sequence of
dice produced by the random source (`Math.floor(Math.random()*6)+1` becomes
`(d i).val + 1 ∈ [1,6]`); every stochastic function threads an explicit
index into that sequence.  JavaScript numbers are modelled by `ℕ`/`ℤ`/`ℚ`
as appropriate: model counts by `ℕ`, distances and ranges by `ℤ`, and the
AI estimator's probabilities by `ℚ`.
-/

namespace OPRSim

/-- A weapon profile.  Optional JS fields (`Furious`, `Predator`, `Deadly`)
default to the falsy value; `Deadly = 0` means "no Deadly rule". -/
structure Weapon where
  name : String
  Range : ℤ
  Attacks : ℕ
  AP : ℕ
  Furious : Bool
  Predator : Bool
  Deadly : ℕ
deriving DecidableEq, Repr

/-- A caller-supplied unit record as produced by the parser
(`parseUnitBlock`): no `shaken`/fatigue/movement fields yet.
`toughValue = 0` models the absent (`undefined`) field. -/
structure InUnit where
  name : String
  numModels : ℕ
  quality : ℕ
  defense : ℕ
  toughValue : ℕ
  specialRules : List String
  weapons : List Weapon
deriving DecidableEq, Repr

/-- The mutable combat-state record built by `cloneUnit` inside
`simulateRangedExchangeUntilMelee`, with the per-engagement movement
allowances and the per-turn flags. -/
structure SimUnit where
  name : String
  numModels : ℕ
  originalNumModels : ℕ
  quality : ℕ
  defense : ℕ
  toughValue : ℕ
  specialRules : List String
  weapons : List Weapon
  shaken : Bool
  hasFoughtInMeleeThisTurn : Bool
  advanceRange : ℤ
  chargeRange : ℤ
deriving DecidableEq, Repr

/-- `unit.toughValue || 1`: an absent (0) toughness defaults to 1. -/
def toughOf (u : SimUnit) : ℕ := if u.toughValue = 0 then 1 else u.toughValue

/-- The value of die number `i` drawn from the source `d`, in `[1,6]`. -/
def roll (d : ℕ → Fin 6) (i : ℕ) : ℕ := (d i).val + 1

/-- One attack/save die against `target`: natural 1 always fails, natural 6
always succeeds, otherwise succeed on `roll ≥ target`
(`simulateHitRolls` / `simulateDefenseRolls` loop body). -/
def hitSucc (r : ℕ) (target : ℤ) : Bool :=
  if r = 1 then false else if r = 6 then true else decide ((r : ℤ) ≥ target)

structure HitRollsResult where
  successes : ℕ
  sixes : ℕ
deriving DecidableEq, Repr

/-- `simulateHitRolls(numDice, quality, modifier)` starting at die index `i`;
consumes `numDice` dice. -/
def simulateHitRolls (d : ℕ → Fin 6) (i : ℕ) (numDice : ℕ) (quality : ℕ)
    (modifier : ℤ) : HitRollsResult :=
  let target : ℤ := (quality : ℤ) - modifier
  { successes := ((List.range numDice).filter fun j => hitSucc (roll d (i + j)) target).length
    sixes := ((List.range numDice).filter fun j => roll d (i + j) = 6).length }

/-- `simulateDefenseRolls(numDice, defense, ap)` starting at die index `i`;
consumes `numDice` dice. -/
def simulateDefenseRolls (d : ℕ → Fin 6) (i : ℕ) (numDice : ℕ) (defense : ℕ)
    (ap : ℕ) : ℕ :=
  ((List.range numDice).filter fun j =>
    hitSucc (roll d (i + j)) ((defense : ℤ) + (ap : ℤ))).length

structure HitsOut where
  hits : ℕ
  ap : ℕ
deriving DecidableEq, Repr

/-- `calculateHits({weaponProfile, attackerStats, numModels})`.  The units
built by the parser carry no `Modifier` field, so the destructured default
`Modifier = 0` always applies.  Returns the result together with the next
unused die index. -/
def calculateHits (d : ℕ → Fin 6) (i : ℕ) (w : Weapon) (quality : ℕ)
    (numModels : ℕ) : HitsOut × ℕ :=
  let totalDice := numModels * w.Attacks
  let hitResults := simulateHitRolls d i totalDice quality 0
  let i1 := i + totalDice
  let totalHits := hitResults.successes + (if w.Furious then hitResults.sixes else 0)
  if w.Predator ∧ hitResults.sixes > 0 then
    let bonusRolls := simulateHitRolls d i1 hitResults.sixes quality 0
    (⟨totalHits + bonusRolls.successes, w.AP⟩, i1 + hitResults.sixes)
  else
    (⟨totalHits, w.AP⟩, i1)

structure RangedOut where
  inRange : Bool
  totalWounds : ℕ
deriving DecidableEq, Repr

/-- `rangedAttack({...})`; `quality` is the only attacker stat read (via
`calculateHits`) and `defense` the only target stat read. -/
def rangedAttack (d : ℕ → Fin 6) (i : ℕ) (w : Weapon) (quality : ℕ)
    (numModels : ℕ) (defense : ℕ) (distanceToTarget : ℤ) : RangedOut × ℕ :=
  if distanceToTarget > w.Range then
    (⟨false, 0⟩, i)
  else
    let hi := calculateHits d i w quality numModels
    let successfulSaves := simulateDefenseRolls d hi.2 hi.1.hits defense hi.1.ap
    let totalWounds := hi.1.hits - successfulSaves
    (⟨true, if w.Deadly ≠ 0 then totalWounds * w.Deadly else totalWounds⟩,
      hi.2 + hi.1.hits)

/-- The fallback melee weapon `{ Attacks: 1, AP: 0 }` used when a unit has no
range-0 weapon; its other fields are never read. -/
def defaultMeleeWeapon : Weapon :=
  { name := "", Range := 0, Attacks := 1, AP := 0,
    Furious := false, Predator := false, Deadly := 0 }

/-- `unit.weapons.find(w => w.Range === 0) || { Attacks: 1, AP: 0 }`. -/
def meleeWeaponOf (u : SimUnit) : Weapon :=
  (u.weapons.find? fun w => decide (w.Range = 0)).getD defaultMeleeWeapon

/-- The effective melee quality: `hasFoughtInMeleeThisTurn ? 6 : quality`,
the ternary used both by `meleeResolution` and by
`estimateMeleeEffectiveness`. -/
def meleeEffQuality (u : SimUnit) : ℕ :=
  if u.hasFoughtInMeleeThisTurn then 6 else u.quality

structure MeleeOut where
  totalWoundsToDefender : ℕ
  totalWoundsToAttacker : ℕ
deriving DecidableEq, Repr

/-- `meleeResolution({attacker, defender})`, threading the die index through
the four roll batches in source order (attacker hits, defender hits,
attacker saves, defender saves). -/
def meleeResolution (d : ℕ → Fin 6) (i : ℕ) (attacker defender : SimUnit) :
    MeleeOut × ℕ :=
  let attackerWeapon := meleeWeaponOf attacker
  let defenderWeapon := meleeWeaponOf defender
  let ah := calculateHits d i attackerWeapon (meleeEffQuality attacker) attacker.numModels
  let dh := calculateHits d ah.2 defenderWeapon (meleeEffQuality defender) defender.numModels
  let attackerSaves := simulateDefenseRolls d dh.2 dh.1.hits attacker.defense dh.1.ap
  let i3 := dh.2 + dh.1.hits
  let defenderSaves := simulateDefenseRolls d i3 ah.1.hits defender.defense ah.1.ap
  let i4 := i3 + ah.1.hits
  let woundsToAttacker := dh.1.hits - attackerSaves
  let woundsToDefender := ah.1.hits - defenderSaves
  (⟨if attackerWeapon.Deadly ≠ 0 then woundsToDefender * attackerWeapon.Deadly
      else woundsToDefender,
    if defenderWeapon.Deadly ≠ 0 then woundsToAttacker * defenderWeapon.Deadly
      else woundsToAttacker⟩, i4)

inductive MoraleOutcome where
  | PASS
  | SHAKEN
  | RETREAT
deriving DecidableEq, Repr

/-- `resolvePostCombatMorale(unit, originalNumModels)`: one plain-threshold
die against the unit's quality, one Fearless retry against 4, then the
half-strength comparison `numModels < originalNumModels / 2` (exact real
division, i.e. `2*numModels < originalNumModels`).  Returns the outcome and
the next unused die index. -/
def resolvePostCombatMorale (d : ℕ → Fin 6) (i : ℕ) (u : SimUnit)
    (originalNumModels : ℕ) : MoraleOutcome × ℕ :=
  let passed1 := decide (roll d i ≥ u.quality)
  let pr : Bool × ℕ :=
    if ¬passed1 ∧ u.specialRules.contains "Fearless" then
      (decide (roll d (i + 1) ≥ 4), i + 2)
    else (passed1, i + 1)
  if pr.1 then (.PASS, pr.2)
  else if 2 * u.numModels < originalNumModels then (.RETREAT, pr.2)
  else (.SHAKEN, pr.2)

/-- The `switch (moraleResult)` in `handleMeleeRound`: PASS changes nothing,
SHAKEN sets the flag, RETREAT destroys the unit. -/
def applyMoraleOutcome (o : MoraleOutcome) (u : SimUnit) : SimUnit :=
  match o with
  | .PASS => u
  | .SHAKEN => { u with shaken := true }
  | .RETREAT => { u with numModels := 0 }

/-- `getSuccessChance(target)`: probability a single die beats `target`,
with the natural-1 floor (clamp to 2) and the natural-6 ceiling (1/6 above
target 6). -/
def getSuccessChance (target : ℤ) : ℚ :=
  if target > 6 then 1 / 6
  else
    let t : ℤ := if target < 2 then 2 else target
    (6 - (t : ℚ) + 1) / 6

/-- `estimateMeleeEffectiveness(unit, opponent)`: the AI's closed-form
expected-wound estimate, returned as
`(expectedWoundsOnOpponent, expectedWoundsOnUnit)`. -/
def estimateMeleeEffectiveness (unit opponent : SimUnit) : ℚ × ℚ :=
  let unitWeapon := meleeWeaponOf unit
  let opponentWeapon := meleeWeaponOf opponent
  let unitHitChance := getSuccessChance (meleeEffQuality unit : ℤ)
  let opponentHitChance := getSuccessChance (meleeEffQuality opponent : ℤ)
  let unitHits := (unit.numModels : ℚ) * (unitWeapon.Attacks : ℚ) * unitHitChance
  let opponentHits := (opponent.numModels : ℚ) * (opponentWeapon.Attacks : ℚ) * opponentHitChance
  let unitWoundChance := 1 - getSuccessChance ((opponent.defense : ℤ) + (unitWeapon.AP : ℤ))
  let opponentWoundChance := 1 - getSuccessChance ((unit.defense : ℤ) + (opponentWeapon.AP : ℤ))
  (unitHits * unitWoundChance, opponentHits * opponentWoundChance)

inductive Action where
  | idle
  | fight
  | advance
  | charge
  | hold
  | rush
deriving DecidableEq, Repr

/-- `decideAction({attacker, opponent, distanceToTarget})`: the tactical
decision maker.  `attacker.chargeRange || 12` and
`attacker.advanceRange || 6` are modelled with 0 standing for the falsy
absent value. -/
def decideAction (attacker opponent : SimUnit) (distanceToTarget : ℤ) : Action :=
  if attacker.shaken then .idle
  else if distanceToTarget = 0 then
    let est := estimateMeleeEffectiveness attacker opponent
    if est.2 > est.1 then .advance else .fight
  else
    let chargeRange : ℤ := if attacker.chargeRange = 0 then 12 else attacker.chargeRange
    let advanceRange : ℤ := if attacker.advanceRange = 0 then 6 else attacker.advanceRange
    let rangedWeapon := attacker.weapons.find? fun w => decide (w.Range > 0)
    let canCharge := decide (distanceToTarget ≤ chargeRange)
    let canShootHold := rangedWeapon.any fun w => decide (distanceToTarget ≤ w.Range)
    let canShootAdvance := rangedWeapon.any fun w => decide (distanceToTarget ≤ w.Range + advanceRange)
    if canCharge then .charge
    else if canShootHold then .hold
    else if canShootAdvance then .advance
    else .rush

/-- The weapon lookup of the hold/advance shooting phase:
`unit.weapons.find(w => w.Range > 0 && w.Range >= currentDistance)`. -/
def selectRangedWeapon (u : SimUnit) (currentDistance : ℤ) : Option Weapon :=
  u.weapons.find? fun w => decide (w.Range > 0) && decide (w.Range ≥ currentDistance)

/-- Which of the two cloned units an event concerns. -/
inductive Side where
  | A
  | B
deriving DecidableEq, Repr

def otherSide : Side → Side
  | .A => .B
  | .B => .A

/-- Structured mirror of the narrative `log`: one event per `log.push`. -/
inductive Event where
  | turnStart (n : ℕ)
  | act (s : Side) (a : Action)
  | rangedFire (s : Side) (weaponName : String) (kills : ℕ)
  | meleeResult (s : Side) (killsOnOpponent killsOnActor : ℕ)
  | moraleTest (s : Side)
  | moralePass (s : Side)
  | moraleShaken (s : Side)
  | moraleRetreat (s : Side)
  | meleeDraw
deriving DecidableEq, Repr

/-- The side that took an action (one of the six decisions); resolution
events (melee results, morale, draws) have no actor. -/
def actorOf : Event → Option Side
  | .act s _ => some s
  | _ => none

def isMeleeResultEv : Event → Bool
  | .meleeResult _ _ _ => true
  | _ => false

def isMoraleEv : Event → Bool
  | .moraleTest _ => true
  | .moralePass _ => true
  | .moraleShaken _ => true
  | .moraleRetreat _ => true
  | _ => false

/-- The engagement state: the two cloned units, the shared scalar distance
and the next unused die index. -/
structure EngState where
  uA : SimUnit
  uB : SimUnit
  dist : ℤ
  idx : ℕ
deriving DecidableEq, Repr

def EngState.get (st : EngState) : Side → SimUnit
  | .A => st.uA
  | .B => st.uB

def EngState.set (st : EngState) : Side → SimUnit → EngState
  | .A, u => { st with uA := u }
  | .B, u => { st with uB := u }

/-- The morale phase of `handleMeleeRound`: test the loser (side `s`) only
when it still has models, and apply the outcome. -/
def moralePhase (d : ℕ → Fin 6) (st : EngState) (s : Side) : EngState × List Event :=
  let loser := st.get s
  if loser.numModels > 0 then
    let mo := resolvePostCombatMorale d st.idx loser loser.originalNumModels
    let ev : Event :=
      match mo.1 with
      | .PASS => .moralePass s
      | .SHAKEN => .moraleShaken s
      | .RETREAT => .moraleRetreat s
    ({ st.set s (applyMoraleOutcome mo.1 loser) with idx := mo.2 },
      [.moraleTest s, ev])
  else (st, [])

/-- `handleMeleeRound(unit1, unit2)`: resolve the melee, set both fatigue
flags, convert wounds to kills, then morale-test the wound-losing side if
it survived (a draw tests nobody). -/
def handleMeleeRound (d : ℕ → Fin 6) (st : EngState) (s1 : Side) : EngState × List Event :=
  let s2 := otherSide s1
  let u1 := st.get s1
  let u2 := st.get s2
  let mr := meleeResolution d st.idx u1 u2
  let killsOnUnit2 := mr.1.totalWoundsToDefender / toughOf u2
  let killsOnUnit1 := mr.1.totalWoundsToAttacker / toughOf u1
  let u1a := { u1 with hasFoughtInMeleeThisTurn := true, numModels := u1.numModels - killsOnUnit1 }
  let u2a := { u2 with hasFoughtInMeleeThisTurn := true, numModels := u2.numModels - killsOnUnit2 }
  let base := { (st.set s1 u1a).set s2 u2a with idx := mr.2 }
  let ev0 : Event := .meleeResult s1 killsOnUnit2 killsOnUnit1
  if mr.1.totalWoundsToDefender > mr.1.totalWoundsToAttacker then
    let ph := moralePhase d base s2
    (ph.1, ev0 :: ph.2)
  else if mr.1.totalWoundsToAttacker > mr.1.totalWoundsToDefender then
    let ph := moralePhase d base s1
    (ph.1, ev0 :: ph.2)
  else
    (base, [ev0, .meleeDraw])

/-- The shooting half of the hold/advance branch of `unitActs`: optional
move, then fire the first weapon whose range covers the updated distance. -/
def moveAndShoot (d : ℕ → Fin 6) (st : EngState) (s : Side) (isAdvance : Bool) :
    EngState × List Event :=
  let unit := st.get s
  let newDist : ℤ :=
    if isAdvance then
      if st.dist = 0 then st.dist + unit.advanceRange
      else max 0 (st.dist - unit.advanceRange)
    else st.dist
  let st1 := { st with dist := newDist }
  let actEv : Event := .act s (if isAdvance then .advance else .hold)
  match selectRangedWeapon unit newDist with
  | none => (st1, [actEv])
  | some w =>
    let opp := st1.get (otherSide s)
    let ra := rangedAttack d st1.idx w unit.quality unit.numModels opp.defense newDist
    let kills := min opp.numModels (ra.1.totalWounds / toughOf opp)
    let st2 := { st1.set (otherSide s) { opp with numModels := opp.numModels - kills } with
                   idx := ra.2 }
    (st2, [actEv, .rangedFire s w.name kills])

/-- `unitActs(unit, opponent)`: decide and dispatch one unit's action.
Returns the updated state, the `chargeOccurred` flag and the events. -/
def unitActs (d : ℕ → Fin 6) (st : EngState) (s : Side) : EngState × Bool × List Event :=
  let unit := st.get s
  let opp := st.get (otherSide s)
  match decideAction unit opp st.dist with
  | .idle =>
    (st.set s { unit with shaken := false }, false, [.act s .idle])
  | .charge =>
    let mh := handleMeleeRound d { st with dist := 0 } s
    (mh.1, true, .act s .charge :: mh.2)
  | .fight =>
    let mh := handleMeleeRound d st s
    (mh.1, false, .act s .fight :: mh.2)
  | .hold =>
    let ms := moveAndShoot d st s false
    (ms.1, false, ms.2)
  | .advance =>
    let ms := moveAndShoot d st s true
    (ms.1, false, ms.2)
  | .rush =>
    ({ st with dist := max 0 (st.dist - unit.chargeRange) }, false, [.act s .rush])

/-- The fatigue reset performed at the top of every turn
(`attacker.hasFoughtInMeleeThisTurn = false; defender... = false`). -/
def resetTurnFlags (st : EngState) : EngState :=
  { st with uA := { st.uA with hasFoughtInMeleeThisTurn := false },
            uB := { st.uB with hasFoughtInMeleeThisTurn := false } }

/-- One iteration of the turn loop: clear both fatigue flags, let the first
side act, then the second side if it survives and no charge occurred. -/
def runTurn (d : ℕ → Fin 6) (attackerFirst : Bool) (st : EngState) :
    EngState × List Event :=
  let st0 := resetTurnFlags st
  let s1 : Side := if attackerFirst then .A else .B
  let s2 := otherSide s1
  let r1 :=
    if (st0.get s1).numModels > 0 then unitActs d st0 s1 else (st0, false, [])
  let r2 :=
    if (r1.1.get s2).numModels > 0 ∧ r1.2.1 = false then
      let ua := unitActs d r1.1 s2
      (ua.1, ua.2.2)
    else (r1.1, [])
  (r2.1, r1.2.2 ++ r2.2)

/-- The `for (turn = 1; turn <= 4; turn++)` loop, with the remaining number
of iterations as structural fuel.  Returns the value of `turn` after the
loop exits, the final state and the accumulated events. -/
def simLoop (d : ℕ → Fin 6) (attackerFirst : Bool) :
    ℕ → ℕ → EngState → ℕ × EngState × List Event
  | 0, turn, st => (turn, st, [])
  | fuel + 1, turn, st =>
    if st.uA.numModels = 0 ∨ st.uB.numModels = 0 then (turn, st, [])
    else
      let tr := runTurn d attackerFirst st
      let rest := simLoop d attackerFirst fuel (turn + 1) tr.1
      (rest.1, rest.2.1, (Event.turnStart turn :: tr.2) ++ rest.2.2)

/-- `cloneUnit(unit)` inside `simulateRangedExchangeUntilMelee`: fresh
combat state with `originalNumModels` fixed to the current model count and
both per-turn flags cleared.  The movement allowances are assigned just
afterwards in the source; they start at the absent value 0 here. -/
def cloneUnit (u : InUnit) : SimUnit :=
  { name := u.name, numModels := u.numModels, originalNumModels := u.numModels,
    quality := u.quality, defense := u.defense, toughValue := u.toughValue,
    specialRules := u.specialRules, weapons := u.weapons,
    shaken := false, hasFoughtInMeleeThisTurn := false,
    advanceRange := 0, chargeRange := 0 }

/-- The advance/charge range assignment from the Fast/Slow special rules
(`attackerIsFast ? 8 : attackerIsSlow ? 4 : 6`, etc.). -/
def withMoveRanges (u : SimUnit) : SimUnit :=
  let fast := u.specialRules.contains "Fast"
  let slow := u.specialRules.contains "Slow"
  { u with advanceRange := if fast then 8 else if slow then 4 else 6,
           chargeRange := if fast then 16 else if slow then 8 else 12 }

structure EngResult where
  turnsElapsed : ℕ
  finalDistance : ℤ
  survivingA : ℕ
  survivingB : ℕ
  events : List Event
deriving DecidableEq, Repr

/-- The loop-and-state core of `simulateRangedExchangeUntilMelee`, exposing
the final `EngState`. -/
def simulateCore (d : ℕ → Fin 6) (unitA unitB : InUnit) (startingDistance : ℤ)
    (attackerFirst : Bool) : ℕ × EngState × List Event :=
  let attacker := withMoveRanges (cloneUnit unitA)
  let defender := withMoveRanges (cloneUnit unitB)
  simLoop d attackerFirst 4 1 ⟨attacker, defender, startingDistance, 0⟩

/-- `simulateRangedExchangeUntilMelee({unitA, unitB, startingDistance,
attackerFirst})`: the engagement orchestrator's entry point. -/
def simulateRangedExchangeUntilMelee (d : ℕ → Fin 6) (unitA unitB : InUnit)
    (startingDistance : ℤ) (attackerFirst : Bool) : EngResult :=
  let core := simulateCore d unitA unitB startingDistance attackerFirst
  { turnsElapsed := core.1 - 1, finalDistance := core.2.1.dist,
    survivingA := core.2.1.uA.numModels, survivingB := core.2.1.uB.numModels,
    events := core.2.2 }

/-- Frame relation for the turn-loop invariants: across a step, neither
side's model count increases and both movement allowances are untouched. -/
def FrameLe (st stNew : EngState) : Prop :=
  stNew.uA.numModels ≤ st.uA.numModels ∧ stNew.uB.numModels ≤ st.uB.numModels ∧
  stNew.uA.advanceRange = st.uA.advanceRange ∧ stNew.uB.advanceRange = st.uB.advanceRange

/-- A step that both respects `FrameLe` and keeps the distance non-negative
whenever it was non-negative and both advance allowances are non-negative. -/
def GoodStep (st stNew : EngState) : Prop :=
  FrameLe st stNew ∧
  (0 ≤ st.dist → 0 ≤ st.uA.advanceRange → 0 ≤ st.uB.advanceRange → 0 ≤ stNew.dist)

/-- Fixture die source for concrete witness runs: every roll is a 5. -/
def dFive : ℕ → Fin 6 := fun _ => ⟨4, by omega⟩

/-- Fixture die source for concrete witness runs: every roll is a 1. -/
def dOne : ℕ → Fin 6 := fun _ => ⟨0, by omega⟩

/-!
## Heap model for the no-mutation (frame) claim

JavaScript unit records and weapon objects live on a heap and are passed by
reference; `cloneUnit` allocates a fresh unit object together with fresh
copies of every weapon object (`unit.weapons.map(w => ({...w}))`), and the
simulator thereafter reads and writes only the two clones.  We model the
heap as two address-indexed lists (unit objects hold weapon *addresses*),
allocation as appending at the end, and the engagement's mutations as the
clones' final state written back to their (fresh) addresses.
-/

/-- A heap-resident unit record: its weapon list is a list of addresses
into the weapon heap. -/
structure UnitObj where
  name : String
  numModels : ℕ
  quality : ℕ
  defense : ℕ
  toughValue : ℕ
  specialRules : List String
  weapons : List ℕ
deriving DecidableEq, Repr

/-- The heap: unit objects and weapon objects addressed by list index. -/
structure Store where
  units : List UnitObj
  weaponHeap : List Weapon
deriving DecidableEq, Repr

def emptyWeapon : Weapon :=
  { name := "", Range := 0, Attacks := 0, AP := 0,
    Furious := false, Predator := false, Deadly := 0 }

def emptyUnitObj : UnitObj :=
  { name := "", numModels := 0, quality := 0, defense := 0, toughValue := 0,
    specialRules := [], weapons := [] }

/-- Dereference a list of weapon addresses. -/
def derefWeapons (σ : Store) (addrs : List ℕ) : List Weapon :=
  addrs.map fun a => σ.weaponHeap[a]?.getD emptyWeapon

/-- Read the value of the unit record at address `i` (the caller-supplied
record as the pure simulator sees it). -/
def readUnit (σ : Store) (i : ℕ) : InUnit :=
  let uo := σ.units[i]?.getD emptyUnitObj
  { name := uo.name, numModels := uo.numModels, quality := uo.quality,
    defense := uo.defense, toughValue := uo.toughValue,
    specialRules := uo.specialRules, weapons := derefWeapons σ uo.weapons }

/-- The allocation performed by `cloneUnit` on unit address `i`: fresh
copies of every weapon object of the unit, then a fresh unit object whose
weapon list points at those copies.  Returns the grown store and the
address of the clone. -/
def allocClone (σ : Store) (i : ℕ) : Store × ℕ :=
  let uo := σ.units[i]?.getD emptyUnitObj
  let ws := derefWeapons σ uo.weapons
  let base := σ.weaponHeap.length
  let newAddrs := (List.range ws.length).map fun k => k + base
  ({ units := σ.units ++ [{ uo with weapons := newAddrs }],
     weaponHeap := σ.weaponHeap ++ ws }, σ.units.length)

/-- Write back a clone's final model count to its unit object. -/
def writeUnitModels (σ : Store) (i : ℕ) (n : ℕ) : Store :=
  match σ.units[i]? with
  | some uo => { σ with units := σ.units.set i { uo with numModels := n } }
  | none => σ

/-- `simulateRangedExchangeUntilMelee` at heap level: read the two
caller-supplied records, allocate the clones, run the engagement on the
clones' values and write the clones' final state back to their own
addresses.  All mutation hits only the freshly allocated objects. -/
def storeSimulate (d : ℕ → Fin 6) (σ : Store) (ia ib : ℕ) (startingDistance : ℤ)
    (attackerFirst : Bool) : Store × EngResult :=
  let inA := readUnit σ ia
  let inB := readUnit σ ib
  let al1 := allocClone σ ia
  let al2 := allocClone al1.1 ib
  let r := simulateRangedExchangeUntilMelee d inA inB startingDistance attackerFirst
  (writeUnitModels (writeUnitModels al2.1 al2.2 r.survivingB) al1.2 r.survivingA, r)

end OPRSim

namespace OPRSim

/-!
## Helper lemmas
-/

lemma getSuccessChance_of_le_two {t : ℤ} (ht : t ≤ 2) : getSuccessChance t = 5 / 6 := by
  simp only [getSuccessChance]
  split_ifs with h1 h2
  · omega
  · norm_num
  · have : t = 2 := by omega
    subst this
    norm_num

lemma getSuccessChance_mid {t : ℤ} (h2 : 2 ≤ t) (h6 : t ≤ 6) :
    getSuccessChance t = (6 - (t : ℚ) + 1) / 6 := by
  simp only [getSuccessChance]
  split_ifs with h1 hlt
  · omega
  · omega
  · rfl

lemma getSuccessChance_of_gt_six {t : ℤ} (ht : 6 < t) : getSuccessChance t = 1 / 6 := by
  simp only [getSuccessChance]
  rw [if_pos ht]

/-!
## C8: `getSuccessChance`
-/

/-- C8: `successChance(target)` equals 5/6 for every target ≤ 2 (targets
below 2 are clamped to 2), equals (6 − target + 1)/6 on [2,6], and 1/6 for
every target > 6; it is non-increasing on [2,6] and always lies in
[1/6, 5/6] (hence in [0,1]). -/
theorem successChance_spec :
    (∀ t : ℤ, t ≤ 2 → getSuccessChance t = 5 / 6) ∧
    (∀ t : ℤ, 2 ≤ t → t ≤ 6 → getSuccessChance t = (6 - (t : ℚ) + 1) / 6) ∧
    (∀ t : ℤ, 6 < t → getSuccessChance t = 1 / 6) ∧
    (∀ s t : ℤ, 2 ≤ s → s ≤ t → t ≤ 6 → getSuccessChance t ≤ getSuccessChance s) ∧
    (∀ t : ℤ, 1 / 6 ≤ getSuccessChance t ∧ getSuccessChance t ≤ 5 / 6) := by
  refine ⟨fun t ht => getSuccessChance_of_le_two ht,
          fun t h2 h6 => getSuccessChance_mid h2 h6,
          fun t ht => getSuccessChance_of_gt_six ht, ?_, ?_⟩
  · intro s t h2 hst h6
    rw [getSuccessChance_mid (le_trans h2 hst) h6, getSuccessChance_mid h2 (le_trans hst h6)]
    have hq : (s : ℚ) ≤ (t : ℚ) := by exact_mod_cast hst
    linarith
  · intro t
    rcases le_or_lt t 2 with h | h
    · rw [getSuccessChance_of_le_two h]
      norm_num
    · rcases le_or_lt t 6 with h6 | h6
      · rw [getSuccessChance_mid (by omega) h6]
        have hq2 : (2 : ℚ) ≤ (t : ℚ) := by exact_mod_cast (by omega : (2:ℤ) ≤ t)
        have hq6 : (t : ℚ) ≤ 6 := by exact_mod_cast h6
        constructor <;> [linarith; linarith]
      · rw [getSuccessChance_of_gt_six h6]
        norm_num

/-- C8 witness: the theorem applied at concrete targets 1, 4, 9, the
monotonicity pair (3,5) and the bound at 0. -/
theorem successChance_spec_witness :
    ((1:ℤ) ≤ 2 ∧ getSuccessChance 1 = 5 / 6) ∧
    ((2:ℤ) ≤ 4 ∧ (4:ℤ) ≤ 6 ∧ getSuccessChance 4 = (6 - (4 : ℚ) + 1) / 6) ∧
    ((6:ℤ) < 9 ∧ getSuccessChance 9 = 1 / 6) ∧
    ((2:ℤ) ≤ 3 ∧ (3:ℤ) ≤ 5 ∧ (5:ℤ) ≤ 6 ∧ getSuccessChance 5 ≤ getSuccessChance 3) ∧
    (1 / 6 ≤ getSuccessChance 0 ∧ getSuccessChance 0 ≤ 5 / 6) :=
  ⟨⟨by norm_num, successChance_spec.1 1 (by norm_num)⟩,
   ⟨by norm_num, by norm_num, successChance_spec.2.1 4 (by norm_num) (by norm_num)⟩,
   ⟨by norm_num, successChance_spec.2.2.1 9 (by norm_num)⟩,
   ⟨by norm_num, by norm_num, by norm_num,
    successChance_spec.2.2.2.1 3 5 (by norm_num) (by norm_num) (by norm_num)⟩,
   successChance_spec.2.2.2.2 0⟩

/-!
## C5: the morale resolver
-/

/-- C5: the morale test passes iff the single die ties or beats the unit's
own quality as a plain threshold comparison (no natural-1/6 override: a
roll of 6 fails against quality 7, a roll of 1 passes against quality 1),
with exactly one Fearless retry against the fixed threshold 4 (die index
advances by 2 exactly when the first roll fails and the unit is Fearless);
on final failure the outcome is RETREAT iff `numModels < originalNumModels/2`
(i.e. `2*numModels < originalNumModels`) and SHAKEN otherwise, and the
`handleMeleeRound` switch applies PASS as no change, SHAKEN as setting the
`shaken` flag and RETREAT as setting `numModels` to 0. -/
theorem morale_spec :
    ∀ (d : ℕ → Fin 6) (i : ℕ) (u : SimUnit) (o : ℕ),
    ((resolvePostCombatMorale d i u o).1 = MoraleOutcome.PASS ↔
        u.quality ≤ roll d i ∨
          (u.specialRules.contains "Fearless" = true ∧ roll d i < u.quality ∧
            4 ≤ roll d (i + 1))) ∧
    ((resolvePostCombatMorale d i u o).2 =
        if u.quality ≤ roll d i ∨ u.specialRules.contains "Fearless" = false
        then i + 1 else i + 2) ∧
    ((resolvePostCombatMorale d i u o).1 = MoraleOutcome.RETREAT ↔
        ¬(u.quality ≤ roll d i ∨
            (u.specialRules.contains "Fearless" = true ∧ roll d i < u.quality ∧
              4 ≤ roll d (i + 1))) ∧ 2 * u.numModels < o) ∧
    ((resolvePostCombatMorale d i u o).1 = MoraleOutcome.SHAKEN ↔
        ¬(u.quality ≤ roll d i ∨
            (u.specialRules.contains "Fearless" = true ∧ roll d i < u.quality ∧
              4 ≤ roll d (i + 1))) ∧ o ≤ 2 * u.numModels) ∧
    (∀ v : SimUnit, applyMoraleOutcome MoraleOutcome.PASS v = v) ∧
    (∀ v : SimUnit, applyMoraleOutcome MoraleOutcome.SHAKEN v = { v with shaken := true }) ∧
    (∀ v : SimUnit,
      applyMoraleOutcome MoraleOutcome.RETREAT v = { v with numModels := 0 }) := by
  intro d i u o
  refine ⟨?_, ?_, ?_, ?_, fun v => rfl, fun v => rfl, fun v => rfl⟩ <;>
  · simp only [resolvePostCombatMorale]
    by_cases hq : u.quality ≤ roll d i <;>
      by_cases hf : "Fearless" ∈ u.specialRules <;>
        by_cases h4 : 4 ≤ roll d (i + 1) <;>
          by_cases hm : 2 * u.numModels < o <;>
            simp [hq, hf, h4, hm] <;> omega

/-!
## C9: wound computation and the Deadly multiplier
-/

lemma rangedAttack_wounds_eq (d : ℕ → Fin 6) (i : ℕ) (w : Weapon) (q n defense : ℕ)
    (dist : ℤ) (h : dist ≤ w.Range) :
    (rangedAttack d i w q n defense dist).1.totalWounds =
      (if w.Deadly ≠ 0
        then ((calculateHits d i w q n).1.hits -
              simulateDefenseRolls d (calculateHits d i w q n).2
                (calculateHits d i w q n).1.hits defense (calculateHits d i w q n).1.ap) * w.Deadly
        else (calculateHits d i w q n).1.hits -
              simulateDefenseRolls d (calculateHits d i w q n).2
                (calculateHits d i w q n).1.hits defense (calculateHits d i w q n).1.ap) := by
  simp only [rangedAttack]
  rw [if_neg (by omega)]

lemma meleeResolution_wounds_eq (d : ℕ → Fin 6) (i : ℕ) (att defn : SimUnit) :
    (meleeResolution d i att defn).1 =
      (let ah := calculateHits d i (meleeWeaponOf att) (meleeEffQuality att) att.numModels
       let dh := calculateHits d ah.2 (meleeWeaponOf defn) (meleeEffQuality defn) defn.numModels
       let asaves := simulateDefenseRolls d dh.2 dh.1.hits att.defense dh.1.ap
       let dsaves := simulateDefenseRolls d (dh.2 + dh.1.hits) ah.1.hits defn.defense ah.1.ap
       ⟨if (meleeWeaponOf att).Deadly ≠ 0
          then (ah.1.hits - dsaves) * (meleeWeaponOf att).Deadly else ah.1.hits - dsaves,
        if (meleeWeaponOf defn).Deadly ≠ 0
          then (dh.1.hits - asaves) * (meleeWeaponOf defn).Deadly else dh.1.hits - asaves⟩) := by
  simp only [meleeResolution]

/-- C9: net wounds are the hit count minus the successful saves, and a
weapon with Deadly(N) multiplies them by N before kill conversion — for
ranged attacks and, per side with its own weapon's multiplier, in melee;
in particular Deadly(2) with 3 net wounds yields exactly 6 wounds. -/
theorem deadly_wounds_spec :
    (∀ (d : ℕ → Fin 6) (i : ℕ) (w : Weapon) (q n defense : ℕ) (dist : ℤ)
        (hits ap i2 saves : ℕ),
      dist ≤ w.Range →
      calculateHits d i w q n = (⟨hits, ap⟩, i2) →
      simulateDefenseRolls d i2 hits defense ap = saves →
      (rangedAttack d i w q n defense dist).1.totalWounds =
        (if w.Deadly ≠ 0 then (hits - saves) * w.Deadly else hits - saves)) ∧
    (∀ (d : ℕ → Fin 6) (i : ℕ) (att defn : SimUnit)
        (ahits aap ai dhits dap di asaves dsaves : ℕ),
      calculateHits d i (meleeWeaponOf att) (meleeEffQuality att) att.numModels =
        (⟨ahits, aap⟩, ai) →
      calculateHits d ai (meleeWeaponOf defn) (meleeEffQuality defn) defn.numModels =
        (⟨dhits, dap⟩, di) →
      simulateDefenseRolls d di dhits att.defense dap = asaves →
      simulateDefenseRolls d (di + dhits) ahits defn.defense aap = dsaves →
      (meleeResolution d i att defn).1 =
        ⟨if (meleeWeaponOf att).Deadly ≠ 0
            then (ahits - dsaves) * (meleeWeaponOf att).Deadly else ahits - dsaves,
         if (meleeWeaponOf defn).Deadly ≠ 0
            then (dhits - asaves) * (meleeWeaponOf defn).Deadly else dhits - asaves⟩) ∧
    (∀ (d : ℕ → Fin 6) (i : ℕ) (w : Weapon) (q n defense : ℕ) (dist : ℤ)
        (hits ap i2 : ℕ),
      dist ≤ w.Range →
      w.Deadly = 2 →
      calculateHits d i w q n = (⟨hits, ap⟩, i2) →
      hits - simulateDefenseRolls d i2 hits defense ap = 3 →
      (rangedAttack d i w q n defense dist).1.totalWounds = 6) := by
  refine ⟨?_, ?_, ?_⟩
  · intro d i w q n defense dist hits ap i2 saves hd hcalc hsaves
    rw [rangedAttack_wounds_eq d i w q n defense dist hd, hcalc]
    simp only
    rw [hsaves]
  · intro d i att defn ahits aap ai dhits dap di asaves dsaves h1 h2 h3 h4
    rw [meleeResolution_wounds_eq, h1]
    simp only
    rw [h2]
    simp only
    rw [h3, h4]
  · intro d i w q n defense dist hits ap i2 hd hdeadly hcalc hnet
    rw [rangedAttack_wounds_eq d i w q n defense dist hd, hcalc]
    simp only
    rw [hnet, hdeadly]
    norm_num

/-- C9 witness: the theorem applied to an all-fives die source; a Deadly(2)
weapon scoring 3 net wounds yields 6, and a plain melee exchange yields the
raw hit difference. -/
theorem deadly_wounds_spec_witness :
    ((5:ℤ) ≤ (10:ℤ) ∧
      calculateHits dFive 0 ⟨"Cannon", 10, 3, 0, false, false, 2⟩ 2 1 = (⟨3, 0⟩, 3) ∧
      simulateDefenseRolls dFive 3 3 6 0 = 0 ∧
      (rangedAttack dFive 0 ⟨"Cannon", 10, 3, 0, false, false, 2⟩ 2 1 6 5).1.totalWounds =
        (if (⟨"Cannon", 10, 3, 0, false, false, 2⟩ : Weapon).Deadly ≠ 0
          then (3 - 0) * (⟨"Cannon", 10, 3, 0, false, false, 2⟩ : Weapon).Deadly
          else 3 - 0)) ∧
    (meleeResolution dFive 0
        ⟨"A", 1, 1, 2, 2, 1, [], [⟨"Blade", 0, 2, 0, false, false, 0⟩], false, false, 6, 12⟩
        ⟨"B", 1, 1, 6, 6, 1, [], [], false, false, 6, 12⟩).1 =
      ⟨2 - 0, 0 - 0⟩ ∧
    ((⟨"Cannon", 10, 3, 0, false, false, 2⟩ : Weapon).Deadly = 2 ∧
      3 - simulateDefenseRolls dFive 3 3 6 0 = 3 ∧
      (rangedAttack dFive 0 ⟨"Cannon", 10, 3, 0, false, false, 2⟩ 2 1 6 5).1.totalWounds = 6) := by
  refine ⟨⟨by decide, by decide, by decide, ?_⟩, ?_, by decide, by decide, ?_⟩
  · exact deadly_wounds_spec.1 dFive 0 ⟨"Cannon", 10, 3, 0, false, false, 2⟩ 2 1 6 5 3 0 3 0
      (by decide) (by decide) (by decide)
  · have h := deadly_wounds_spec.2.1 dFive 0
      ⟨"A", 1, 1, 2, 2, 1, [], [⟨"Blade", 0, 2, 0, false, false, 0⟩], false, false, 6, 12⟩
      ⟨"B", 1, 1, 6, 6, 1, [], [], false, false, 6, 12⟩
      2 0 2 0 0 3 0 0 (by decide) (by decide) (by decide) (by decide)
    simpa using h
  · exact deadly_wounds_spec.2.2 dFive 0 ⟨"Cannon", 10, 3, 0, false, false, 2⟩ 2 1 6 5 3 0 3
      (by decide) (by decide) (by decide) (by decide)

/-!
## State-access helper lemmas
-/

lemma otherSide_ne (s : Side) : otherSide s ≠ s := by
  cases s <;> simp [otherSide]

lemma EngState.get_set_self (st : EngState) (s : Side) (u : SimUnit) :
    (st.set s u).get s = u := by
  cases s <;> rfl

lemma EngState.get_set_of_ne (st : EngState) (s s' : Side) (u : SimUnit)
    (h : s' ≠ s) : (st.set s u).get s' = st.get s' := by
  cases s <;> cases s' <;> simp_all [EngState.set, EngState.get]

lemma EngState.dist_set (st : EngState) (s : Side) (u : SimUnit) :
    (st.set s u).dist = st.dist := by
  cases s <;> rfl

lemma EngState.idx_set (st : EngState) (s : Side) (u : SimUnit) :
    (st.set s u).idx = st.idx := by
  cases s <;> rfl

/-!
## C10: no morale test after a draw or when the loser is wiped out
-/

/-- C10: after a melee round, the morale test runs only when a strict
wound loser exists and still has models after kill conversion; on a draw or
a wiped-out loser no morale die is consumed (the final die index is exactly
the one after `meleeResolution`), neither side's `shaken` flag changes, both
sides' model counts are exactly the post-kill values (no RETREAT zeroing),
and no morale event is logged. -/
theorem melee_no_morale_when_dead_or_draw :
    ∀ (d : ℕ → Fin 6) (st : EngState) (s1 : Side) (wd wa i4 : ℕ),
    meleeResolution d st.idx (st.get s1) (st.get (otherSide s1)) = (⟨wd, wa⟩, i4) →
    (wd = wa ∨
      (wa < wd ∧ (st.get (otherSide s1)).numModels - wd / toughOf (st.get (otherSide s1)) = 0) ∨
      (wd < wa ∧ (st.get s1).numModels - wa / toughOf (st.get s1) = 0)) →
    (handleMeleeRound d st s1).1.idx = i4 ∧
    ((handleMeleeRound d st s1).1.get s1).shaken = (st.get s1).shaken ∧
    ((handleMeleeRound d st s1).1.get (otherSide s1)).shaken =
      (st.get (otherSide s1)).shaken ∧
    ((handleMeleeRound d st s1).1.get s1).numModels =
      (st.get s1).numModels - wa / toughOf (st.get s1) ∧
    ((handleMeleeRound d st s1).1.get (otherSide s1)).numModels =
      (st.get (otherSide s1)).numModels - wd / toughOf (st.get (otherSide s1)) ∧
    (∀ e ∈ (handleMeleeRound d st s1).2, isMoraleEv e = false) := by
  intro d st s1 wd wa i4 hmr hcase
  cases s1 <;>
  · simp only [EngState.get, otherSide] at hmr hcase ⊢
    simp only [handleMeleeRound, otherSide, EngState.get, EngState.set, moralePhase, hmr]
    rcases hcase with h | ⟨h1, h2⟩ | ⟨h1, h2⟩ <;>
      split_ifs <;>
        first
          | omega
          | simp_all [EngState.get, isMoraleEv]

/-- C10 witness: an all-ones die source gives a 0–0 melee draw between two
unarmed single-model units; the theorem applied there shows no morale die
is consumed and no morale event is logged. -/
theorem melee_no_morale_when_dead_or_draw_witness :
    (handleMeleeRound dOne
        ⟨⟨"A", 1, 1, 4, 4, 1, [], [], false, false, 6, 12⟩,
         ⟨"B", 1, 1, 4, 4, 1, [], [], false, false, 6, 12⟩, 0, 0⟩ Side.A).1.idx = 2 ∧
    (∀ e ∈ (handleMeleeRound dOne
        ⟨⟨"A", 1, 1, 4, 4, 1, [], [], false, false, 6, 12⟩,
         ⟨"B", 1, 1, 4, 4, 1, [], [], false, false, 6, 12⟩, 0, 0⟩ Side.A).2,
      isMoraleEv e = false) :=
  let h := melee_no_morale_when_dead_or_draw dOne
    ⟨⟨"A", 1, 1, 4, 4, 1, [], [], false, false, 6, 12⟩,
     ⟨"B", 1, 1, 4, 4, 1, [], [], false, false, 6, 12⟩, 0, 0⟩ Side.A 0 0 2
    (by decide) (Or.inl rfl)
  ⟨h.1, h.2.2.2.2.2⟩

/-!
## C1: which weapon is fired by hold/advance
-/

lemma find?_eq_some_first {α : Type} (p : α → Bool) :
    ∀ (l : List α) (a : α), l.find? p = some a →
      p a = true ∧ ∃ l1 l2, l = l1 ++ a :: l2 ∧ ∀ x ∈ l1, p x = false := by
  intro l
  induction l with
  | nil => intro a h; simp [List.find?] at h
  | cons x xs ih =>
    intro a h
    by_cases hx : p x = true
    · rw [List.find?_cons_of_pos _ hx] at h
      cases h
      exact ⟨hx, [], xs, rfl, by simp⟩
    · have hx' : p x = false := by simpa using hx
      rw [List.find?_cons_of_neg _ hx] at h
      obtain ⟨hpa, l1, l2, heq, hall⟩ := ih a h
      refine ⟨hpa, x :: l1, l2, by simp [heq], ?_⟩
      intro y hy
      rcases List.mem_cons.mp hy with rfl | hy
      · exact hx'
      · exact hall y hy

/-- C1 (amended): in the hold/advance shooting phase the weapon fired is
the *first* weapon in the unit's list order with range > 0 and range ≥ the
(possibly updated) current distance — every weapon listed before it fails
that reach test — not the weapon of maximal range; and when `decideAction`
returns hold, `unitActs` fires exactly that selected weapon. -/
theorem fired_weapon_first_reaching :
    (∀ (u : SimUnit) (dist : ℤ) (w : Weapon),
      selectRangedWeapon u dist = some w →
        (0 < w.Range ∧ dist ≤ w.Range) ∧
        ∃ l1 l2, u.weapons = l1 ++ w :: l2 ∧
          ∀ w2 ∈ l1, ¬(0 < w2.Range ∧ dist ≤ w2.Range)) ∧
    (∀ (d : ℕ → Fin 6) (st : EngState) (s : Side) (w : Weapon),
      decideAction (st.get s) (st.get (otherSide s)) st.dist = Action.hold →
      selectRangedWeapon (st.get s) st.dist = some w →
      ∃ k, Event.rangedFire s w.name k ∈ (unitActs d st s).2.2) := by
  constructor
  · intro u dist w hsel
    simp only [selectRangedWeapon] at hsel
    obtain ⟨hp, l1, l2, heq, hall⟩ := find?_eq_some_first _ u.weapons w hsel
    refine ⟨?_, l1, l2, heq, ?_⟩
    · simpa [Bool.and_eq_true, decide_eq_true_eq] using hp
    · intro w2 hw2
      have := hall w2 hw2
      simp only [Bool.and_eq_false_iff, decide_eq_false_iff_not] at this
      rcases this with h | h
      · exact fun hc => h hc.1
      · exact fun hc => h hc.2
  · intro d st s w hdec hsel
    simp only [unitActs, hdec, moveAndShoot, Bool.false_eq_true, if_false, hsel]
    exact ⟨_, List.mem_cons_of_mem _ (List.mem_cons_self _ _)⟩

/-- C1 counterexample to the claim as stated: at distance 13 the unit
holds and fires its first in-range weapon "short" (range 14), although
"long" (range 30 > 14) is also a ranged weapon reaching that distance, so
the fired weapon is not the one of maximal range. -/
theorem fired_weapon_not_longest_counterexample :
    decideAction
        ⟨"C", 1, 1, 4, 4, 1, [], [⟨"short", 14, 1, 0, false, false, 0⟩,
          ⟨"long", 30, 1, 0, false, false, 0⟩], false, false, 6, 12⟩
        ⟨"B", 1, 1, 6, 6, 1, [], [], false, false, 6, 12⟩ 13 = Action.hold ∧
    (unitActs dOne
        ⟨⟨"C", 1, 1, 4, 4, 1, [], [⟨"short", 14, 1, 0, false, false, 0⟩,
            ⟨"long", 30, 1, 0, false, false, 0⟩], false, false, 6, 12⟩,
         ⟨"B", 1, 1, 6, 6, 1, [], [], false, false, 6, 12⟩, 13, 0⟩ Side.A).2.2 =
      [Event.act Side.A Action.hold, Event.rangedFire Side.A "short" 0] ∧
    selectRangedWeapon
        ⟨"C", 1, 1, 4, 4, 1, [], [⟨"short", 14, 1, 0, false, false, 0⟩,
          ⟨"long", 30, 1, 0, false, false, 0⟩], false, false, 6, 12⟩ 13 =
      some ⟨"short", 14, 1, 0, false, false, 0⟩ ∧
    (⟨"long", 30, 1, 0, false, false, 0⟩ : Weapon) ∈
      (⟨"C", 1, 1, 4, 4, 1, [], [⟨"short", 14, 1, 0, false, false, 0⟩,
        ⟨"long", 30, 1, 0, false, false, 0⟩], false, false, 6, 12⟩ : SimUnit).weapons ∧
    (0:ℤ) < 30 ∧ (13:ℤ) ≤ 30 ∧ (14:ℤ) < 30 := by
  decide

/-- C1 witness: the amended theorem applied to a one-weapon unit holding at
distance 13. -/
theorem fired_weapon_first_reaching_witness :
    ((0:ℤ) < (⟨"gun", 14, 1, 0, false, false, 0⟩ : Weapon).Range ∧
      (13:ℤ) ≤ (⟨"gun", 14, 1, 0, false, false, 0⟩ : Weapon).Range) ∧
    ∃ k, Event.rangedFire Side.A "gun" k ∈
      (unitActs dOne
        ⟨⟨"G", 1, 1, 4, 4, 1, [], [⟨"gun", 14, 1, 0, false, false, 0⟩], false, false, 6, 12⟩,
         ⟨"B", 1, 1, 6, 6, 1, [], [], false, false, 6, 12⟩, 13, 0⟩ Side.A).2.2 :=
  ⟨(fired_weapon_first_reaching.1
      ⟨"G", 1, 1, 4, 4, 1, [], [⟨"gun", 14, 1, 0, false, false, 0⟩], false, false, 6, 12⟩
      13 ⟨"gun", 14, 1, 0, false, false, 0⟩ (by decide)).1,
   fired_weapon_first_reaching.2 dOne
     ⟨⟨"G", 1, 1, 4, 4, 1, [], [⟨"gun", 14, 1, 0, false, false, 0⟩], false, false, 6, 12⟩,
      ⟨"B", 1, 1, 6, 6, 1, [], [], false, false, 6, 12⟩, 13, 0⟩ Side.A
     ⟨"gun", 14, 1, 0, false, false, 0⟩ (by decide) (by decide)⟩

/-!
## C2: the tactical decision priority chain
-/

/-- C2 (amended): for a non-shaken unit at nonzero distance the decision
follows the strict priority charge / hold / advance / rush, but only the
unit's FIRST listed ranged weapon (first with range > 0) is ever consulted
for the hold and advance reach tests: charge if the distance is within the
charge range (falsy 0 defaulting to 12); else hold if the first ranged
weapon's range covers the distance; else advance if its range plus the
advance range (falsy 0 defaulting to 6) covers it; else rush — also when a
*later* weapon in the list would have covered the distance. -/
theorem decideAction_first_ranged_only :
    (∀ (a opp : SimUnit) (dist : ℤ), a.shaken = false → dist ≠ 0 →
      dist ≤ (if a.chargeRange = 0 then 12 else a.chargeRange) →
      decideAction a opp dist = Action.charge) ∧
    (∀ (a opp : SimUnit) (dist : ℤ) (w : Weapon), a.shaken = false → dist ≠ 0 →
      ¬dist ≤ (if a.chargeRange = 0 then 12 else a.chargeRange) →
      a.weapons.find? (fun w => decide (w.Range > 0)) = some w →
      dist ≤ w.Range →
      decideAction a opp dist = Action.hold) ∧
    (∀ (a opp : SimUnit) (dist : ℤ) (w : Weapon), a.shaken = false → dist ≠ 0 →
      ¬dist ≤ (if a.chargeRange = 0 then 12 else a.chargeRange) →
      a.weapons.find? (fun w => decide (w.Range > 0)) = some w →
      ¬dist ≤ w.Range →
      dist ≤ w.Range + (if a.advanceRange = 0 then 6 else a.advanceRange) →
      decideAction a opp dist = Action.advance) ∧
    (∀ (a opp : SimUnit) (dist : ℤ) (w : Weapon), a.shaken = false → dist ≠ 0 →
      ¬dist ≤ (if a.chargeRange = 0 then 12 else a.chargeRange) →
      a.weapons.find? (fun w => decide (w.Range > 0)) = some w →
      ¬dist ≤ w.Range →
      ¬dist ≤ w.Range + (if a.advanceRange = 0 then 6 else a.advanceRange) →
      decideAction a opp dist = Action.rush) ∧
    (∀ (a opp : SimUnit) (dist : ℤ), a.shaken = false → dist ≠ 0 →
      ¬dist ≤ (if a.chargeRange = 0 then 12 else a.chargeRange) →
      a.weapons.find? (fun w => decide (w.Range > 0)) = none →
      decideAction a opp dist = Action.rush) ∧
    (∀ (a : SimUnit) (w : Weapon),
      a.weapons.find? (fun w => decide (w.Range > 0)) = some w →
      0 < w.Range ∧ ∃ l1 l2, a.weapons = l1 ++ w :: l2 ∧ ∀ w2 ∈ l1, ¬0 < w2.Range) := by
  refine ⟨?_, ?_, ?_, ?_, ?_, ?_⟩
  · intro a opp dist hsh hd hc
    simp [decideAction, hsh, hd, hc]
  · intro a opp dist w hsh hd hc hf hw
    simp [decideAction, hsh, hd, hc, hf, hw]
  · intro a opp dist w hsh hd hc hf hw ha
    simp [decideAction, hsh, hd, hc, hf, hw, ha]
  · intro a opp dist w hsh hd hc hf hw ha
    simp [decideAction, hsh, hd, hc, hf, hw, ha]
  · intro a opp dist hsh hd hc hf
    simp [decideAction, hsh, hd, hc, hf]
  · intro a w hf
    obtain ⟨hp, l1, l2, heq, hall⟩ := find?_eq_some_first _ a.weapons w hf
    refine ⟨by simpa using hp, l1, l2, heq, ?_⟩
    intro w2 hw2
    simpa using hall w2 hw2

/-- C2 counterexample to the claim as stated: at distance 20 with charge
range 12 the unit rushes although its second weapon (range 30 > 0) covers
the distance — only the first ranged weapon (range 6) was consulted. -/
theorem hold_ignores_later_weapons_counterexample :
    decideAction
        ⟨"C2", 1, 1, 4, 4, 1, [], [⟨"s6", 6, 1, 0, false, false, 0⟩,
          ⟨"long", 30, 1, 0, false, false, 0⟩], false, false, 6, 12⟩
        ⟨"B", 1, 1, 6, 6, 1, [], [], false, false, 6, 12⟩ 20 = Action.rush ∧
    (⟨"long", 30, 1, 0, false, false, 0⟩ : Weapon) ∈
      (⟨"C2", 1, 1, 4, 4, 1, [], [⟨"s6", 6, 1, 0, false, false, 0⟩,
        ⟨"long", 30, 1, 0, false, false, 0⟩], false, false, 6, 12⟩ : SimUnit).weapons ∧
    (0:ℤ) < 30 ∧ (20:ℤ) ≤ 30 ∧
    (⟨"C2", 1, 1, 4, 4, 1, [], [⟨"s6", 6, 1, 0, false, false, 0⟩,
      ⟨"long", 30, 1, 0, false, false, 0⟩], false, false, 6, 12⟩ : SimUnit).shaken = false ∧
    ¬(20:ℤ) ≤ (⟨"C2", 1, 1, 4, 4, 1, [], [⟨"s6", 6, 1, 0, false, false, 0⟩,
      ⟨"long", 30, 1, 0, false, false, 0⟩], false, false, 6, 12⟩ : SimUnit).chargeRange := by
  decide

/-- C2 witness: the amended theorem applied at concrete inputs — a charge
at distance 10, a hold on a first ranged weapon of range 24 at distance 20,
and a rush at distance 40. -/
theorem decideAction_first_ranged_only_witness :
    decideAction
        ⟨"W", 1, 1, 4, 4, 1, [], [⟨"gun", 24, 1, 0, false, false, 0⟩], false, false, 6, 12⟩
        ⟨"B", 1, 1, 6, 6, 1, [], [], false, false, 6, 12⟩ 10 = Action.charge ∧
    decideAction
        ⟨"W", 1, 1, 4, 4, 1, [], [⟨"gun", 24, 1, 0, false, false, 0⟩], false, false, 6, 12⟩
        ⟨"B", 1, 1, 6, 6, 1, [], [], false, false, 6, 12⟩ 20 = Action.hold ∧
    decideAction
        ⟨"W", 1, 1, 4, 4, 1, [], [⟨"gun", 24, 1, 0, false, false, 0⟩], false, false, 6, 12⟩
        ⟨"B", 1, 1, 6, 6, 1, [], [], false, false, 6, 12⟩ 40 = Action.rush :=
  ⟨decideAction_first_ranged_only.1
      ⟨"W", 1, 1, 4, 4, 1, [], [⟨"gun", 24, 1, 0, false, false, 0⟩], false, false, 6, 12⟩
      ⟨"B", 1, 1, 6, 6, 1, [], [], false, false, 6, 12⟩ 10 rfl (by decide) (by decide),
   decideAction_first_ranged_only.2.1
      ⟨"W", 1, 1, 4, 4, 1, [], [⟨"gun", 24, 1, 0, false, false, 0⟩], false, false, 6, 12⟩
      ⟨"B", 1, 1, 6, 6, 1, [], [], false, false, 6, 12⟩ 20
      ⟨"gun", 24, 1, 0, false, false, 0⟩ rfl (by decide) (by decide) (by decide) (by decide),
   decideAction_first_ranged_only.2.2.2.1
      ⟨"W", 1, 1, 4, 4, 1, [], [⟨"gun", 24, 1, 0, false, false, 0⟩], false, false, 6, 12⟩
      ⟨"B", 1, 1, 6, 6, 1, [], [], false, false, 6, 12⟩ 40
      ⟨"gun", 24, 1, 0, false, false, 0⟩ rfl (by decide) (by decide) (by decide) (by decide)
      (by decide)⟩

/-!
## C3: the melee fatigue substitution
-/

/-- C3 counterexample to the claim as stated: a fatigued unit's effective
melee quality is 6, not the claimed 7. -/
theorem fatigue_quality_not_seven_counterexample :
    meleeEffQuality ⟨"F", 5, 5, 4, 4, 1, [], [], false, true, 6, 12⟩ = 6 ∧ (6 : ℕ) ≠ 7 := by
  decide

/-- C3 (amended): a side that already fought in melee this turn has its
effective quality forced to 6 (not 7); since attack dice treat a natural 6
as an automatic success and rolls 2–5 fail against target 6, quality 6
already means only a natural 6 can hit, and `getSuccessChance` gives the
same 1/6 for targets 6 and 7.  A side that has not fought uses its own
quality, and the same substitution drives both `meleeResolution` and the
AI's `estimateMeleeEffectiveness` (a fatigued unit is interchangeable with
an unfatigued copy of quality 6 in both). -/
theorem fatigue_forces_quality_six :
    (∀ u : SimUnit, u.hasFoughtInMeleeThisTurn = true → meleeEffQuality u = 6) ∧
    (∀ u : SimUnit, u.hasFoughtInMeleeThisTurn = false → meleeEffQuality u = u.quality) ∧
    (∀ r : ℕ, 1 ≤ r → r ≤ 6 → (hitSucc r 6 = true ↔ r = 6)) ∧
    (getSuccessChance 6 = 1 / 6 ∧ getSuccessChance 7 = 1 / 6) ∧
    (∀ u opp : SimUnit, u.hasFoughtInMeleeThisTurn = true →
      estimateMeleeEffectiveness u opp =
        estimateMeleeEffectiveness { u with hasFoughtInMeleeThisTurn := false, quality := 6 } opp) ∧
    (∀ u opp : SimUnit, opp.hasFoughtInMeleeThisTurn = true →
      estimateMeleeEffectiveness u opp =
        estimateMeleeEffectiveness u { opp with hasFoughtInMeleeThisTurn := false, quality := 6 }) ∧
    (∀ (d : ℕ → Fin 6) (i : ℕ) (u defn : SimUnit), u.hasFoughtInMeleeThisTurn = true →
      meleeResolution d i u defn =
        meleeResolution d i { u with hasFoughtInMeleeThisTurn := false, quality := 6 } defn) ∧
    (∀ (d : ℕ → Fin 6) (i : ℕ) (u defn : SimUnit), defn.hasFoughtInMeleeThisTurn = true →
      meleeResolution d i u defn =
        meleeResolution d i u { defn with hasFoughtInMeleeThisTurn := false, quality := 6 }) := by
  refine ⟨?_, ?_, ?_, ⟨?_, ?_⟩, ?_, ?_, ?_, ?_⟩
  · intro u h
    simp [meleeEffQuality, h]
  · intro u h
    simp [meleeEffQuality, h]
  · intro r h1 h6
    interval_cases r <;> simp [hitSucc]
  · rw [getSuccessChance_mid (by norm_num) (by norm_num)]
    norm_num
  · rw [getSuccessChance_of_gt_six (by norm_num)]
  · intro u opp h
    simp [estimateMeleeEffectiveness, meleeEffQuality, meleeWeaponOf, h]
  · intro u opp h
    simp [estimateMeleeEffectiveness, meleeEffQuality, meleeWeaponOf, h]
  · intro d i u defn h
    simp [meleeResolution, meleeEffQuality, meleeWeaponOf, h]
  · intro d i u defn h
    simp [meleeResolution, meleeEffQuality, meleeWeaponOf, h]

/-- C3 witness: the amended theorem applied to a concrete fatigued unit of
quality 4 (and its unfatigued twin), and to the boundary roll values. -/
theorem fatigue_forces_quality_six_witness :
    meleeEffQuality ⟨"F", 5, 5, 4, 4, 1, [], [], false, true, 6, 12⟩ = 6 ∧
    meleeEffQuality ⟨"F", 5, 5, 4, 4, 1, [], [], false, false, 6, 12⟩ = 4 ∧
    (hitSucc 6 6 = true ↔ (6:ℕ) = 6) ∧
    (hitSucc 5 6 = true ↔ (5:ℕ) = 6) ∧
    estimateMeleeEffectiveness ⟨"F", 5, 5, 4, 4, 1, [], [], false, true, 6, 12⟩
        ⟨"B", 1, 1, 6, 6, 1, [], [], false, false, 6, 12⟩ =
      estimateMeleeEffectiveness ⟨"F", 5, 5, 6, 4, 1, [], [], false, false, 6, 12⟩
        ⟨"B", 1, 1, 6, 6, 1, [], [], false, false, 6, 12⟩ ∧
    meleeResolution dOne 0 ⟨"F", 5, 5, 4, 4, 1, [], [], false, true, 6, 12⟩
        ⟨"B", 1, 1, 6, 6, 1, [], [], false, false, 6, 12⟩ =
      meleeResolution dOne 0 ⟨"F", 5, 5, 6, 4, 1, [], [], false, false, 6, 12⟩
        ⟨"B", 1, 1, 6, 6, 1, [], [], false, false, 6, 12⟩ :=
  ⟨fatigue_forces_quality_six.1 ⟨"F", 5, 5, 4, 4, 1, [], [], false, true, 6, 12⟩ rfl,
   fatigue_forces_quality_six.2.1 ⟨"F", 5, 5, 4, 4, 1, [], [], false, false, 6, 12⟩ rfl,
   fatigue_forces_quality_six.2.2.1 6 (by decide) (by decide),
   fatigue_forces_quality_six.2.2.1 5 (by decide) (by decide),
   fatigue_forces_quality_six.2.2.2.2.1 ⟨"F", 5, 5, 4, 4, 1, [], [], false, true, 6, 12⟩
     ⟨"B", 1, 1, 6, 6, 1, [], [], false, false, 6, 12⟩ rfl,
   fatigue_forces_quality_six.2.2.2.2.2.2.1 dOne 0
     ⟨"F", 5, 5, 4, 4, 1, [], [], false, true, 6, 12⟩
     ⟨"B", 1, 1, 6, 6, 1, [], [], false, false, 6, 12⟩ rfl⟩

/-!
## C4: charge exclusivity — helper lemmas
-/

lemma moralePhase_dist (d : ℕ → Fin 6) (st : EngState) (s : Side) :
    (moralePhase d st s).1.dist = st.dist := by
  simp only [moralePhase]
  split_ifs <;> simp [EngState.dist_set]

lemma moralePhase_events (d : ℕ → Fin 6) (st : EngState) (s : Side) :
    ∀ e ∈ (moralePhase d st s).2, actorOf e = none ∧ isMeleeResultEv e = false := by
  simp only [moralePhase]
  split_ifs
  · cases h : (resolvePostCombatMorale d st.idx (st.get s) (st.get s).originalNumModels).1 <;>
      simp [h, actorOf, isMeleeResultEv]
  · simp

lemma moralePhase_countP_zero (d : ℕ → Fin 6) (st : EngState) (s : Side) :
    (moralePhase d st s).2.countP (fun e => isMeleeResultEv e) = 0 := by
  rw [List.countP_eq_zero]
  intro e he
  simp [(moralePhase_events d st s e he).2]

lemma handleMeleeRound_shape (d : ℕ → Fin 6) (st : EngState) (s1 : Side) :
    (handleMeleeRound d st s1).1.dist = st.dist ∧
    (handleMeleeRound d st s1).2.countP (fun e => isMeleeResultEv e) = 1 ∧
    ∀ e ∈ (handleMeleeRound d st s1).2, actorOf e = none := by
  simp only [handleMeleeRound]
  split_ifs
  · refine ⟨by simp [moralePhase_dist, EngState.dist_set], ?_, ?_⟩
    · simp [List.countP_cons, isMeleeResultEv, moralePhase_countP_zero]
      intro e he
      simpa [isMeleeResultEv] using (moralePhase_events d _ _ e he).2
    · intro e he
      rcases List.mem_cons.mp he with rfl | he
      · rfl
      · exact (moralePhase_events d _ (otherSide s1) e he).1
  · refine ⟨by simp [moralePhase_dist, EngState.dist_set], ?_, ?_⟩
    · simp [List.countP_cons, isMeleeResultEv, moralePhase_countP_zero]
      intro e he
      simpa [isMeleeResultEv] using (moralePhase_events d _ _ e he).2
    · intro e he
      rcases List.mem_cons.mp he with rfl | he
      · rfl
      · exact (moralePhase_events d _ s1 e he).1
  · refine ⟨by simp [EngState.dist_set], by simp [isMeleeResultEv, actorOf], ?_⟩
    intro e he
    rcases List.mem_cons.mp he with rfl | he
    · rfl
    · simp only [List.mem_singleton] at he
      subst he
      rfl

lemma moveAndShoot_has_act (d : ℕ → Fin 6) (st : EngState) (s : Side) (b : Bool) :
    Event.act s (if b then Action.advance else Action.hold) ∈ (moveAndShoot d st s b).2 := by
  simp only [moveAndShoot]
  cases hsel : selectRangedWeapon (st.get s)
      (if b = true then
        (if st.dist = 0 then st.dist + (st.get s).advanceRange
          else max 0 (st.dist - (st.get s).advanceRange))
        else st.dist) <;>
    simp [hsel]

lemma unitActs_has_act (d : ℕ → Fin 6) (st : EngState) (s : Side) :
    ∃ e ∈ (unitActs d st s).2.2, actorOf e = some s := by
  cases hdec : decideAction (st.get s) (st.get (otherSide s)) st.dist <;>
    simp only [unitActs, hdec]
  case idle => exact ⟨Event.act s Action.idle, by simp, rfl⟩
  case fight => exact ⟨Event.act s Action.fight, by simp, rfl⟩
  case advance => exact ⟨Event.act s Action.advance, moveAndShoot_has_act d st s true, rfl⟩
  case charge => exact ⟨Event.act s Action.charge, by simp, rfl⟩
  case hold => exact ⟨Event.act s Action.hold, moveAndShoot_has_act d st s false, rfl⟩
  case rush => exact ⟨Event.act s Action.rush, by simp, rfl⟩

/-- C4 (amended): in any turn, if the first-acting side's decision is
charge, the distance ends at 0, exactly one melee-resolution entry is
logged and the second side never acts (no act event of the second side at
all, hence no ranged fire, movement or second melee).  If the decision is
fight, the second side does act afterwards in the same turn *provided it
still has models after the melee round* (the claim's unconditional version
fails when the fight wipes the opponent out). -/
theorem charge_consumes_turn :
    (∀ (d : ℕ → Fin 6) (af : Bool) (st : EngState),
      ((resetTurnFlags st).get (if af then Side.A else Side.B)).numModels ≠ 0 →
      decideAction ((resetTurnFlags st).get (if af then Side.A else Side.B))
          ((resetTurnFlags st).get (otherSide (if af then Side.A else Side.B)))
          (resetTurnFlags st).dist = Action.charge →
      (runTurn d af st).1.dist = 0 ∧
      (runTurn d af st).2.countP (fun e => isMeleeResultEv e) = 1 ∧
      ∀ e ∈ (runTurn d af st).2,
        actorOf e ≠ some (otherSide (if af then Side.A else Side.B))) ∧
    (∀ (d : ℕ → Fin 6) (af : Bool) (st : EngState),
      ((resetTurnFlags st).get (if af then Side.A else Side.B)).numModels ≠ 0 →
      decideAction ((resetTurnFlags st).get (if af then Side.A else Side.B))
          ((resetTurnFlags st).get (otherSide (if af then Side.A else Side.B)))
          (resetTurnFlags st).dist = Action.fight →
      ((unitActs d (resetTurnFlags st) (if af then Side.A else Side.B)).1.get
          (otherSide (if af then Side.A else Side.B))).numModels ≠ 0 →
      ∃ e ∈ (runTurn d af st).2,
        actorOf e = some (otherSide (if af then Side.A else Side.B))) := by
  constructor
  · intro d af st hn hdec
    simp only [runTurn]
    rw [if_pos (Nat.pos_of_ne_zero hn)]
    simp only [unitActs, hdec, Bool.true_eq_false, and_false, if_false]
    refine ⟨(handleMeleeRound_shape d _ _).1.trans rfl, ?_, ?_⟩
    · rw [List.append_nil, List.countP_cons, (handleMeleeRound_shape d _ _).2.1]
      simp [isMeleeResultEv]
    · intro e he heq
      simp only [List.append_nil, List.mem_cons] at he
      rcases he with rfl | he
      · simp only [actorOf, Option.some.injEq] at heq
        exact otherSide_ne _ heq.symm
      · rw [(handleMeleeRound_shape d _ _).2.2 e he] at heq
        cases heq
  · intro d af st hn hdec hsurv
    simp only [runTurn]
    rw [if_pos (Nat.pos_of_ne_zero hn)]
    have hfalse : (unitActs d (resetTurnFlags st) (if af then Side.A else Side.B)).2.1 = false := by
      simp only [unitActs, hdec]
    rw [if_pos (And.intro (Nat.pos_of_ne_zero hsurv) hfalse)]
    obtain ⟨e, he, hact⟩ := unitActs_has_act d
      (unitActs d (resetTurnFlags st) (if af then Side.A else Side.B)).1
      (otherSide (if af then Side.A else Side.B))
    exact ⟨e, List.mem_append_right _ he, hact⟩

/-- C4 counterexample to the claim as stated: with an all-fives die source
the first unit's fight decision kills the single opposing model, and the
opponent then does not act in that turn (no event of side B at all), so
"the opponent still acts afterward" fails without a survival proviso. -/
theorem fight_opponent_may_not_act_counterexample :
    decideAction
        ⟨"A", 1, 1, 2, 2, 1, [], [⟨"Blade", 0, 2, 0, false, false, 0⟩], false, false, 6, 12⟩
        ⟨"B", 1, 1, 6, 6, 1, [], [], false, false, 6, 12⟩ 0 = Action.fight ∧
    (runTurn dFive true
        ⟨⟨"A", 1, 1, 2, 2, 1, [], [⟨"Blade", 0, 2, 0, false, false, 0⟩], false, false, 6, 12⟩,
         ⟨"B", 1, 1, 6, 6, 1, [], [], false, false, 6, 12⟩, 0, 0⟩).2 =
      [Event.act Side.A Action.fight, Event.meleeResult Side.A 2 0] ∧
    (runTurn dFive true
        ⟨⟨"A", 1, 1, 2, 2, 1, [], [⟨"Blade", 0, 2, 0, false, false, 0⟩], false, false, 6, 12⟩,
         ⟨"B", 1, 1, 6, 6, 1, [], [], false, false, 6, 12⟩, 0, 0⟩).1.uB.numModels = 0 ∧
    ∀ e ∈ (runTurn dFive true
        ⟨⟨"A", 1, 1, 2, 2, 1, [], [⟨"Blade", 0, 2, 0, false, false, 0⟩], false, false, 6, 12⟩,
         ⟨"B", 1, 1, 6, 6, 1, [], [], false, false, 6, 12⟩, 0, 0⟩).2,
      actorOf e ≠ some Side.B := by
  have hf : decideAction
      ⟨"A", 1, 1, 2, 2, 1, [], [⟨"Blade", 0, 2, 0, false, false, 0⟩], false, false, 6, 12⟩
      ⟨"B", 1, 1, 6, 6, 1, [], [], false, false, 6, 12⟩ 0 = Action.fight := by
    simp [decideAction, estimateMeleeEffectiveness, meleeWeaponOf, defaultMeleeWeapon,
      meleeEffQuality, getSuccessChance]
    norm_num
  have hrun : (runTurn dFive true
      ⟨⟨"A", 1, 1, 2, 2, 1, [], [⟨"Blade", 0, 2, 0, false, false, 0⟩], false, false, 6, 12⟩,
       ⟨"B", 1, 1, 6, 6, 1, [], [], false, false, 6, 12⟩, 0, 0⟩).2 =
        [Event.act Side.A Action.fight, Event.meleeResult Side.A 2 0] ∧
      (runTurn dFive true
      ⟨⟨"A", 1, 1, 2, 2, 1, [], [⟨"Blade", 0, 2, 0, false, false, 0⟩], false, false, 6, 12⟩,
       ⟨"B", 1, 1, 6, 6, 1, [], [], false, false, 6, 12⟩, 0, 0⟩).1.uB.numModels = 0 := by
    simp only [runTurn, resetTurnFlags, unitActs, EngState.get, EngState.set, otherSide]
    norm_num [hf, handleMeleeRound, moralePhase, meleeResolution, meleeWeaponOf,
      defaultMeleeWeapon, meleeEffQuality, calculateHits, simulateHitRolls,
      simulateDefenseRolls, toughOf, EngState.get, EngState.set, otherSide, roll, dFive,
      hitSucc, List.filter, List.range_succ]
  refine ⟨hf, hrun.1, hrun.2, ?_⟩
  rw [hrun.1]
  intro e he
  rcases List.mem_cons.mp he with rfl | he
  · simp [actorOf]
  · simp only [List.mem_singleton] at he
    subst he
    simp [actorOf]

/-- C4 witness: the amended theorem applied twice — a concrete charge turn
(distance 10, within charge range 12) where the second side never acts, and
a concrete fight turn with an all-ones die source (no kills) where the
surviving opponent does act afterward. -/
theorem charge_consumes_turn_witness :
    (((resetTurnFlags ⟨⟨"A", 1, 1, 2, 2, 1, [], [⟨"Blade", 0, 2, 0, false, false, 0⟩],
          false, false, 6, 12⟩,
        ⟨"B", 1, 1, 6, 6, 1, [], [], false, false, 6, 12⟩, 10, 0⟩).get
        (if true then Side.A else Side.B)).numModels ≠ 0 ∧
      (runTurn dFive true ⟨⟨"A", 1, 1, 2, 2, 1, [], [⟨"Blade", 0, 2, 0, false, false, 0⟩],
          false, false, 6, 12⟩,
        ⟨"B", 1, 1, 6, 6, 1, [], [], false, false, 6, 12⟩, 10, 0⟩).1.dist = 0 ∧
      (runTurn dFive true ⟨⟨"A", 1, 1, 2, 2, 1, [], [⟨"Blade", 0, 2, 0, false, false, 0⟩],
          false, false, 6, 12⟩,
        ⟨"B", 1, 1, 6, 6, 1, [], [], false, false, 6, 12⟩, 10, 0⟩).2.countP
        (fun e => isMeleeResultEv e) = 1 ∧
      ∀ e ∈ (runTurn dFive true ⟨⟨"A", 1, 1, 2, 2, 1, [],
          [⟨"Blade", 0, 2, 0, false, false, 0⟩], false, false, 6, 12⟩,
        ⟨"B", 1, 1, 6, 6, 1, [], [], false, false, 6, 12⟩, 10, 0⟩).2,
        actorOf e ≠ some (otherSide (if true then Side.A else Side.B))) ∧
    (∃ e ∈ (runTurn dOne true ⟨⟨"A", 1, 1, 2, 2, 1, [],
          [⟨"Blade", 0, 2, 0, false, false, 0⟩], false, false, 6, 12⟩,
        ⟨"B", 1, 1, 6, 6, 1, [], [], false, false, 6, 12⟩, 0, 0⟩).2,
      actorOf e = some (otherSide (if true then Side.A else Side.B))) := by
  have hch := charge_consumes_turn.1 dFive true
    ⟨⟨"A", 1, 1, 2, 2, 1, [], [⟨"Blade", 0, 2, 0, false, false, 0⟩], false, false, 6, 12⟩,
     ⟨"B", 1, 1, 6, 6, 1, [], [], false, false, 6, 12⟩, 10, 0⟩ (by decide) (by decide)
  have hf : decideAction
      ⟨"A", 1, 1, 2, 2, 1, [], [⟨"Blade", 0, 2, 0, false, false, 0⟩], false, false, 6, 12⟩
      ⟨"B", 1, 1, 6, 6, 1, [], [], false, false, 6, 12⟩ 0 = Action.fight := by
    simp [decideAction, estimateMeleeEffectiveness, meleeWeaponOf, defaultMeleeWeapon,
      meleeEffQuality, getSuccessChance]
    norm_num
  have hf2 : decideAction
      ((resetTurnFlags ⟨⟨"A", 1, 1, 2, 2, 1, [], [⟨"Blade", 0, 2, 0, false, false, 0⟩],
          false, false, 6, 12⟩,
        ⟨"B", 1, 1, 6, 6, 1, [], [], false, false, 6, 12⟩, 0, 0⟩).get
        (if true then Side.A else Side.B))
      ((resetTurnFlags ⟨⟨"A", 1, 1, 2, 2, 1, [], [⟨"Blade", 0, 2, 0, false, false, 0⟩],
          false, false, 6, 12⟩,
        ⟨"B", 1, 1, 6, 6, 1, [], [], false, false, 6, 12⟩, 0, 0⟩).get
        (otherSide (if true then Side.A else Side.B)))
      (resetTurnFlags ⟨⟨"A", 1, 1, 2, 2, 1, [], [⟨"Blade", 0, 2, 0, false, false, 0⟩],
          false, false, 6, 12⟩,
        ⟨"B", 1, 1, 6, 6, 1, [], [], false, false, 6, 12⟩, 0, 0⟩).dist = Action.fight := by
    simpa [resetTurnFlags, EngState.get, otherSide] using hf
  have hsurv : ((unitActs dOne
      (resetTurnFlags ⟨⟨"A", 1, 1, 2, 2, 1, [], [⟨"Blade", 0, 2, 0, false, false, 0⟩],
          false, false, 6, 12⟩,
        ⟨"B", 1, 1, 6, 6, 1, [], [], false, false, 6, 12⟩, 0, 0⟩)
      (if true then Side.A else Side.B)).1.get
      (otherSide (if true then Side.A else Side.B))).numModels ≠ 0 := by
    simp only [resetTurnFlags, unitActs, EngState.get, EngState.set, otherSide]
    norm_num [hf, handleMeleeRound, moralePhase, meleeResolution, meleeWeaponOf,
      defaultMeleeWeapon, meleeEffQuality, calculateHits, simulateHitRolls,
      simulateDefenseRolls, toughOf, EngState.get, EngState.set, otherSide, roll, dOne,
      hitSucc, List.filter, List.range_succ]
  exact ⟨⟨by decide, hch⟩,
    charge_consumes_turn.2 dOne true
      ⟨⟨"A", 1, 1, 2, 2, 1, [], [⟨"Blade", 0, 2, 0, false, false, 0⟩], false, false, 6, 12⟩,
       ⟨"B", 1, 1, 6, 6, 1, [], [], false, false, 6, 12⟩, 0, 0⟩ (by decide) hf2 hsurv⟩

/-!
## C6: termination and the turn-loop invariants — helper lemmas
-/

lemma FrameLe_refl (st : EngState) : FrameLe st st :=
  ⟨le_refl _, le_refl _, rfl, rfl⟩

lemma FrameLe_trans {s1 s2 s3 : EngState} (h1 : FrameLe s1 s2) (h2 : FrameLe s2 s3) :
    FrameLe s1 s3 :=
  ⟨le_trans h2.1 h1.1, le_trans h2.2.1 h1.2.1,
   h2.2.2.1.trans h1.2.2.1, h2.2.2.2.trans h1.2.2.2⟩

lemma GoodStep_refl (st : EngState) : GoodStep st st :=
  ⟨FrameLe_refl st, fun h _ _ => h⟩

lemma GoodStep_trans {s1 s2 s3 : EngState} (h1 : GoodStep s1 s2) (h2 : GoodStep s2 s3) :
    GoodStep s1 s3 := by
  refine ⟨FrameLe_trans h1.1 h2.1, fun hd ha hb => ?_⟩
  exact h2.2 (h1.2 hd ha hb) (h1.1.2.2.1 ▸ ha) (h1.1.2.2.2 ▸ hb)

lemma applyMoraleOutcome_numModels (o : MoraleOutcome) (u : SimUnit) :
    (applyMoraleOutcome o u).numModels ≤ u.numModels := by
  cases o <;> simp [applyMoraleOutcome]

lemma applyMoraleOutcome_advanceRange (o : MoraleOutcome) (u : SimUnit) :
    (applyMoraleOutcome o u).advanceRange = u.advanceRange := by
  cases o <;> simp [applyMoraleOutcome]

lemma moralePhase_frame (d : ℕ → Fin 6) (st : EngState) (s : Side) :
    FrameLe st (moralePhase d st s).1 := by
  cases s <;>
  · simp only [moralePhase, EngState.get, EngState.set]
    split_ifs
    · exact ⟨by simp [applyMoraleOutcome_numModels], by simp [applyMoraleOutcome_numModels],
        by simp [applyMoraleOutcome_advanceRange], by simp [applyMoraleOutcome_advanceRange]⟩
    · exact FrameLe_refl st

lemma handleMeleeRound_frame (d : ℕ → Fin 6) (st : EngState) (s1 : Side) :
    FrameLe st (handleMeleeRound d st s1).1 := by
  cases s1 <;>
  · simp only [handleMeleeRound, otherSide, EngState.get, EngState.set]
    split_ifs
    · refine FrameLe_trans ?_ (moralePhase_frame d _ _)
      exact ⟨Nat.sub_le _ _, Nat.sub_le _ _, rfl, rfl⟩
    · refine FrameLe_trans ?_ (moralePhase_frame d _ _)
      exact ⟨Nat.sub_le _ _, Nat.sub_le _ _, rfl, rfl⟩
    · exact ⟨Nat.sub_le _ _, Nat.sub_le _ _, rfl, rfl⟩

lemma handleMeleeRound_goodStep (d : ℕ → Fin 6) (st : EngState) (s1 : Side) :
    GoodStep st (handleMeleeRound d st s1).1 :=
  ⟨handleMeleeRound_frame d st s1,
   fun hd _ _ => ((handleMeleeRound_shape d st s1).1).symm ▸ hd⟩

lemma newDist_nonneg (dist adv : ℤ) (b : Bool) (hd : 0 ≤ dist) (ha : 0 ≤ adv) :
    0 ≤ (if b = true then (if dist = 0 then dist + adv else max 0 (dist - adv)) else dist) := by
  split_ifs <;> omega

lemma moveAndShoot_goodStep (d : ℕ → Fin 6) (st : EngState) (s : Side) (b : Bool) :
    GoodStep st (moveAndShoot d st s b).1 := by
  cases s
  case A =>
    simp only [moveAndShoot, EngState.get, EngState.set, otherSide]
    cases hsel : selectRangedWeapon st.uA
        (if b = true then
          (if st.dist = 0 then st.dist + st.uA.advanceRange
            else max 0 (st.dist - st.uA.advanceRange))
          else st.dist) <;>
      simp only [hsel]
    · exact ⟨⟨le_refl _, le_refl _, rfl, rfl⟩,
        fun hd ha _ => newDist_nonneg st.dist st.uA.advanceRange b hd ha⟩
    · exact ⟨⟨le_refl _, Nat.sub_le _ _, rfl, rfl⟩,
        fun hd ha _ => newDist_nonneg st.dist st.uA.advanceRange b hd ha⟩
  case B =>
    simp only [moveAndShoot, EngState.get, EngState.set, otherSide]
    cases hsel : selectRangedWeapon st.uB
        (if b = true then
          (if st.dist = 0 then st.dist + st.uB.advanceRange
            else max 0 (st.dist - st.uB.advanceRange))
          else st.dist) <;>
      simp only [hsel]
    · exact ⟨⟨le_refl _, le_refl _, rfl, rfl⟩,
        fun hd _ hb => newDist_nonneg st.dist st.uB.advanceRange b hd hb⟩
    · exact ⟨⟨Nat.sub_le _ _, le_refl _, rfl, rfl⟩,
        fun hd _ hb => newDist_nonneg st.dist st.uB.advanceRange b hd hb⟩

lemma resetTurnFlags_goodStep (st : EngState) : GoodStep st (resetTurnFlags st) :=
  ⟨⟨le_refl _, le_refl _, rfl, rfl⟩, fun hd _ _ => hd⟩

lemma unitActs_goodStep (d : ℕ → Fin 6) (st : EngState) (s : Side) :
    GoodStep st (unitActs d st s).1 := by
  cases s
  case A =>
    simp only [unitActs, EngState.get, EngState.set, otherSide]
    cases hdec : decideAction st.uA st.uB st.dist <;> simp only [hdec]
    case idle => exact ⟨⟨le_refl _, le_refl _, rfl, rfl⟩, fun hd _ _ => hd⟩
    case fight =>
      have h := handleMeleeRound_goodStep d st Side.A
      exact h
    case advance =>
      have h := moveAndShoot_goodStep d st Side.A true
      exact h
    case charge =>
      refine GoodStep_trans
        (⟨⟨le_refl _, le_refl _, rfl, rfl⟩, fun _ _ _ => le_refl 0⟩ :
          GoodStep st { st with dist := 0 }) ?_
      exact handleMeleeRound_goodStep d _ Side.A
    case hold =>
      have h := moveAndShoot_goodStep d st Side.A false
      exact h
    case rush => exact ⟨⟨le_refl _, le_refl _, rfl, rfl⟩, fun _ _ _ => le_max_left 0 _⟩
  case B =>
    simp only [unitActs, EngState.get, EngState.set, otherSide]
    cases hdec : decideAction st.uB st.uA st.dist <;> simp only [hdec]
    case idle => exact ⟨⟨le_refl _, le_refl _, rfl, rfl⟩, fun hd _ _ => hd⟩
    case fight =>
      have h := handleMeleeRound_goodStep d st Side.B
      exact h
    case advance =>
      have h := moveAndShoot_goodStep d st Side.B true
      exact h
    case charge =>
      refine GoodStep_trans
        (⟨⟨le_refl _, le_refl _, rfl, rfl⟩, fun _ _ _ => le_refl 0⟩ :
          GoodStep st { st with dist := 0 }) ?_
      exact handleMeleeRound_goodStep d _ Side.B
    case hold =>
      have h := moveAndShoot_goodStep d st Side.B false
      exact h
    case rush => exact ⟨⟨le_refl _, le_refl _, rfl, rfl⟩, fun _ _ _ => le_max_left 0 _⟩

lemma runTurn_goodStep (d : ℕ → Fin 6) (af : Bool) (st : EngState) :
    GoodStep st (runTurn d af st).1 := by
  simp only [runTurn]
  split_ifs <;>
    first
      | exact GoodStep_trans (resetTurnFlags_goodStep st)
          (GoodStep_trans (unitActs_goodStep d _ _) (unitActs_goodStep d _ _))
      | exact GoodStep_trans (resetTurnFlags_goodStep st) (unitActs_goodStep d _ _)
      | exact resetTurnFlags_goodStep st

lemma simLoop_goodStep (d : ℕ → Fin 6) (af : Bool) :
    ∀ (fuel turn : ℕ) (st : EngState),
      GoodStep st (simLoop d af fuel turn st).2.1 := by
  intro fuel
  induction fuel with
  | zero => intro turn st; exact GoodStep_refl st
  | succ fuel ih =>
    intro turn st
    simp only [simLoop]
    split_ifs with h
    · exact GoodStep_refl st
    · exact GoodStep_trans (runTurn_goodStep d af st) (ih (turn + 1) _)

lemma simLoop_turn (d : ℕ → Fin 6) (af : Bool) :
    ∀ (fuel turn : ℕ) (st : EngState),
      turn ≤ (simLoop d af fuel turn st).1 ∧
      (simLoop d af fuel turn st).1 ≤ turn + fuel ∧
      ((simLoop d af fuel turn st).1 < turn + fuel →
        (simLoop d af fuel turn st).2.1.uA.numModels = 0 ∨
        (simLoop d af fuel turn st).2.1.uB.numModels = 0) := by
  intro fuel
  induction fuel with
  | zero =>
    intro turn st
    simp only [simLoop]
    exact ⟨le_refl _, by omega, fun h => absurd h (by omega)⟩
  | succ fuel ih =>
    intro turn st
    simp only [simLoop]
    split_ifs with h
    · exact ⟨le_refl _, by omega, fun _ => h⟩
    · obtain ⟨ih1, ih2, ih3⟩ := ih (turn + 1) (runTurn d af st).1
      exact ⟨by omega, by omega, fun hlt => ih3 (by omega)⟩

/-- C6: for every pair of input units, non-negative starting distance
(well-formedness of the shared scalar distance) and die sequence, the
engagement terminates with `turnsElapsed ≤ 4`; the surviving model counts
never exceed the initial ones (and are `ℕ`, hence never negative), the
final distance is non-negative, and an early stop (fewer than 4 turns)
happens exactly because a turn began with a side at 0 models, which then
shows as a 0 survivor count. -/
theorem engagement_invariants :
    ∀ (d : ℕ → Fin 6) (unitA unitB : InUnit) (startingDistance : ℤ) (af : Bool),
      0 ≤ startingDistance →
      (simulateRangedExchangeUntilMelee d unitA unitB startingDistance af).turnsElapsed ≤ 4 ∧
      (simulateRangedExchangeUntilMelee d unitA unitB startingDistance af).survivingA ≤
        unitA.numModels ∧
      (simulateRangedExchangeUntilMelee d unitA unitB startingDistance af).survivingB ≤
        unitB.numModels ∧
      0 ≤ (simulateRangedExchangeUntilMelee d unitA unitB startingDistance af).finalDistance ∧
      ((simulateRangedExchangeUntilMelee d unitA unitB startingDistance af).turnsElapsed < 4 →
        (simulateRangedExchangeUntilMelee d unitA unitB startingDistance af).survivingA = 0 ∨
        (simulateRangedExchangeUntilMelee d unitA unitB startingDistance af).survivingB = 0) := by
  intro d unitA unitB startingDistance af hd
  have hg := simLoop_goodStep d af 4 1
    ⟨withMoveRanges (cloneUnit unitA), withMoveRanges (cloneUnit unitB), startingDistance, 0⟩
  have ht := simLoop_turn d af 4 1
    ⟨withMoveRanges (cloneUnit unitA), withMoveRanges (cloneUnit unitB), startingDistance, 0⟩
  have haA : (0:ℤ) ≤ (withMoveRanges (cloneUnit unitA)).advanceRange := by
    simp only [withMoveRanges, cloneUnit]
    split_ifs <;> norm_num
  have haB : (0:ℤ) ≤ (withMoveRanges (cloneUnit unitB)).advanceRange := by
    simp only [withMoveRanges, cloneUnit]
    split_ifs <;> norm_num
  simp only [simulateRangedExchangeUntilMelee, simulateCore]
  refine ⟨?_, ?_, ?_, ?_, ?_⟩
  · omega
  · exact hg.1.1
  · exact hg.1.2.1
  · exact hg.2 hd haA haB
  · intro hlt
    exact ht.2.2 (by omega)

/-- C6 witness: the theorem applied to the spec's reference scenario — two
5-model Q4+/D5+ rifle-and-blade units, starting distance 24, attacker
first, with an all-fives die source. -/
theorem engagement_invariants_witness :
    (0:ℤ) ≤ 24 ∧
    (simulateRangedExchangeUntilMelee dFive
        ⟨"Grunts", 5, 4, 5, 0, ["Fast"], [⟨"Rifle", 24, 1, 0, false, false, 0⟩,
          ⟨"CombatBlade", 0, 1, 0, false, false, 0⟩]⟩
        ⟨"Grunts2", 5, 4, 5, 0, [], [⟨"Rifle", 24, 1, 0, false, false, 0⟩,
          ⟨"CombatBlade", 0, 1, 0, false, false, 0⟩]⟩ 24 true).turnsElapsed ≤ 4 ∧
    (simulateRangedExchangeUntilMelee dFive
        ⟨"Grunts", 5, 4, 5, 0, ["Fast"], [⟨"Rifle", 24, 1, 0, false, false, 0⟩,
          ⟨"CombatBlade", 0, 1, 0, false, false, 0⟩]⟩
        ⟨"Grunts2", 5, 4, 5, 0, [], [⟨"Rifle", 24, 1, 0, false, false, 0⟩,
          ⟨"CombatBlade", 0, 1, 0, false, false, 0⟩]⟩ 24 true).survivingA ≤ 5 ∧
    (simulateRangedExchangeUntilMelee dFive
        ⟨"Grunts", 5, 4, 5, 0, ["Fast"], [⟨"Rifle", 24, 1, 0, false, false, 0⟩,
          ⟨"CombatBlade", 0, 1, 0, false, false, 0⟩]⟩
        ⟨"Grunts2", 5, 4, 5, 0, [], [⟨"Rifle", 24, 1, 0, false, false, 0⟩,
          ⟨"CombatBlade", 0, 1, 0, false, false, 0⟩]⟩ 24 true).survivingB ≤ 5 ∧
    0 ≤ (simulateRangedExchangeUntilMelee dFive
        ⟨"Grunts", 5, 4, 5, 0, ["Fast"], [⟨"Rifle", 24, 1, 0, false, false, 0⟩,
          ⟨"CombatBlade", 0, 1, 0, false, false, 0⟩]⟩
        ⟨"Grunts2", 5, 4, 5, 0, [], [⟨"Rifle", 24, 1, 0, false, false, 0⟩,
          ⟨"CombatBlade", 0, 1, 0, false, false, 0⟩]⟩ 24 true).finalDistance :=
  have h := engagement_invariants dFive
    ⟨"Grunts", 5, 4, 5, 0, ["Fast"], [⟨"Rifle", 24, 1, 0, false, false, 0⟩,
      ⟨"CombatBlade", 0, 1, 0, false, false, 0⟩]⟩
    ⟨"Grunts2", 5, 4, 5, 0, [], [⟨"Rifle", 24, 1, 0, false, false, 0⟩,
      ⟨"CombatBlade", 0, 1, 0, false, false, 0⟩]⟩ 24 true (by norm_num)
  ⟨by norm_num, h.1, h.2.1, h.2.2.1, h.2.2.2.1⟩

/-!
## C7: the engagement never mutates the caller's records — helper lemmas
-/

lemma writeUnitModels_units_ne (σ : Store) (i j n : ℕ) (h : i ≠ j) :
    (writeUnitModels σ i n).units[j]? = σ.units[j]? := by
  simp only [writeUnitModels]
  cases hu : σ.units[i]? with
  | none => rfl
  | some uo => exact List.getElem?_set_ne h

lemma writeUnitModels_weaponHeap (σ : Store) (i n : ℕ) :
    (writeUnitModels σ i n).weaponHeap = σ.weaponHeap := by
  simp only [writeUnitModels]
  cases σ.units[i]? <;> rfl

lemma allocClone_units_lt (σ : Store) (i j : ℕ) (h : j < σ.units.length) :
    (allocClone σ i).1.units[j]? = σ.units[j]? := by
  simp only [allocClone]
  exact List.getElem?_append_left h

lemma allocClone_weaponHeap_lt (σ : Store) (i j : ℕ) (h : j < σ.weaponHeap.length) :
    (allocClone σ i).1.weaponHeap[j]? = σ.weaponHeap[j]? := by
  simp only [allocClone]
  exact List.getElem?_append_left h

lemma allocClone_units_len (σ : Store) (i : ℕ) :
    (allocClone σ i).1.units.length = σ.units.length + 1 := by
  simp [allocClone]

lemma allocClone_snd (σ : Store) (i : ℕ) : (allocClone σ i).2 = σ.units.length := rfl

lemma allocClone_weaponHeap_len (σ : Store) (i : ℕ) :
    σ.weaponHeap.length ≤ (allocClone σ i).1.weaponHeap.length := by
  simp [allocClone]

lemma storeSimulate_units_lt (d : ℕ → Fin 6) (σ : Store) (ia ib : ℕ) (dist0 : ℤ)
    (af : Bool) (j : ℕ) (h : j < σ.units.length) :
    (storeSimulate d σ ia ib dist0 af).1.units[j]? = σ.units[j]? := by
  simp only [storeSimulate]
  rw [writeUnitModels_units_ne _ _ _ _ (by rw [allocClone_snd]; omega),
      writeUnitModels_units_ne _ _ _ _ (by rw [allocClone_snd, allocClone_units_len]; omega),
      allocClone_units_lt _ _ _ (by rw [allocClone_units_len]; omega),
      allocClone_units_lt _ _ _ h]

lemma storeSimulate_weaponHeap_lt (d : ℕ → Fin 6) (σ : Store) (ia ib : ℕ) (dist0 : ℤ)
    (af : Bool) (j : ℕ) (h : j < σ.weaponHeap.length) :
    (storeSimulate d σ ia ib dist0 af).1.weaponHeap[j]? = σ.weaponHeap[j]? := by
  simp only [storeSimulate]
  rw [writeUnitModels_weaponHeap, writeUnitModels_weaponHeap,
      allocClone_weaponHeap_lt _ _ _ (lt_of_lt_of_le h (allocClone_weaponHeap_len σ ia)),
      allocClone_weaponHeap_lt _ _ _ h]

/-- C7: running the engagement never mutates the caller-supplied unit
records: the simulator reads the two records, allocates clones (fresh unit
objects with fresh copies of every weapon object) and writes only to the
clones' addresses, so every pre-existing unit object and weapon object in
the store is untouched; the result equals the pure engagement of the read
values, and a repeated call observes the very same inputs. -/
theorem no_caller_mutation :
    ∀ (d : ℕ → Fin 6) (σ : Store) (ia ib : ℕ) (dist0 : ℤ) (af : Bool),
      ia < σ.units.length → ib < σ.units.length →
      (∀ j, j < σ.units.length →
        (storeSimulate d σ ia ib dist0 af).1.units[j]? = σ.units[j]?) ∧
      (∀ j, j < σ.weaponHeap.length →
        (storeSimulate d σ ia ib dist0 af).1.weaponHeap[j]? = σ.weaponHeap[j]?) ∧
      (storeSimulate d σ ia ib dist0 af).2 =
        simulateRangedExchangeUntilMelee d (readUnit σ ia) (readUnit σ ib) dist0 af ∧
      ((∀ uo ∈ σ.units, ∀ a ∈ uo.weapons, a < σ.weaponHeap.length) →
        readUnit (storeSimulate d σ ia ib dist0 af).1 ia = readUnit σ ia ∧
        readUnit (storeSimulate d σ ia ib dist0 af).1 ib = readUnit σ ib) := by
  intro d σ ia ib dist0 af hia hib
  refine ⟨fun j hj => storeSimulate_units_lt d σ ia ib dist0 af j hj,
    fun j hj => storeSimulate_weaponHeap_lt d σ ia ib dist0 af j hj, rfl, ?_⟩
  intro hwf
  have key : ∀ i, i < σ.units.length →
      readUnit (storeSimulate d σ ia ib dist0 af).1 i = readUnit σ i := by
    intro i hi
    simp only [readUnit]
    rw [storeSimulate_units_lt d σ ia ib dist0 af i hi]
    cases hu : σ.units[i]? with
    | none => rfl
    | some uo =>
      simp only [Option.getD_some]
      have hderef : derefWeapons (storeSimulate d σ ia ib dist0 af).1 uo.weapons =
          derefWeapons σ uo.weapons := by
        simp only [derefWeapons]
        apply List.map_congr_left
        intro a ha
        rw [storeSimulate_weaponHeap_lt d σ ia ib dist0 af a
          (hwf uo (List.getElem?_mem hu) a ha)]
      rw [hderef]
  exact ⟨key ia hia, key ib hib⟩

/-- C7 witness: the theorem applied to a concrete two-unit store sharing a
one-weapon heap — the caller's records and weapon object are unchanged and
the second read observes the same inputs. -/
theorem no_caller_mutation_witness :
    (storeSimulate dFive
        ⟨[⟨"U1", 2, 4, 4, 0, [], [0]⟩, ⟨"U2", 3, 3, 5, 0, [], [0]⟩],
         [⟨"Rifle", 24, 1, 0, false, false, 0⟩]⟩ 0 1 24 true).1.units[0]? =
      (⟨[⟨"U1", 2, 4, 4, 0, [], [0]⟩, ⟨"U2", 3, 3, 5, 0, [], [0]⟩],
        [⟨"Rifle", 24, 1, 0, false, false, 0⟩]⟩ : Store).units[0]? ∧
    (storeSimulate dFive
        ⟨[⟨"U1", 2, 4, 4, 0, [], [0]⟩, ⟨"U2", 3, 3, 5, 0, [], [0]⟩],
         [⟨"Rifle", 24, 1, 0, false, false, 0⟩]⟩ 0 1 24 true).1.weaponHeap[0]? =
      (⟨[⟨"U1", 2, 4, 4, 0, [], [0]⟩, ⟨"U2", 3, 3, 5, 0, [], [0]⟩],
        [⟨"Rifle", 24, 1, 0, false, false, 0⟩]⟩ : Store).weaponHeap[0]? ∧
    readUnit (storeSimulate dFive
        ⟨[⟨"U1", 2, 4, 4, 0, [], [0]⟩, ⟨"U2", 3, 3, 5, 0, [], [0]⟩],
         [⟨"Rifle", 24, 1, 0, false, false, 0⟩]⟩ 0 1 24 true).1 0 =
      readUnit ⟨[⟨"U1", 2, 4, 4, 0, [], [0]⟩, ⟨"U2", 3, 3, 5, 0, [], [0]⟩],
        [⟨"Rifle", 24, 1, 0, false, false, 0⟩]⟩ 0 :=
  have h := no_caller_mutation dFive
    ⟨[⟨"U1", 2, 4, 4, 0, [], [0]⟩, ⟨"U2", 3, 3, 5, 0, [], [0]⟩],
     [⟨"Rifle", 24, 1, 0, false, false, 0⟩]⟩ 0 1 24 true (by decide) (by decide)
  ⟨h.1 0 (by decide), h.2.1 0 (by decide), (h.2.2.2 (by decide)).1⟩

end OPRSim
